import Mathlib

/-!
Shallow embedding of the CreditWatch benefit-window engine
(`backend/app/crud.py`, `backend/app/main.py`, `backend/app/schemas.py`).

Dates are modelled as year/month/day triples of naturals compared
lexicographically, exactly as Python `datetime.date` compares; monetary
amounts are modelled as rationals.
-/

namespace CreditWatch

/-- Calendar date, compared lexicographically like Python `datetime.date`. -/
structure Date where
  year : Nat
  month : Nat
  day : Nat
deriving DecidableEq, Repr

/-- Strict lexicographic order on dates (Python `<` on `datetime.date`). -/
def dateLt (a b : Date) : Prop :=
  a.year < b.year ∨
    (a.year = b.year ∧ (a.month < b.month ∨ (a.month = b.month ∧ a.day < b.day)))

/-- Non-strict lexicographic order on dates (Python `<=` on `datetime.date`). -/
def dateLe (a b : Date) : Prop :=
  a.year < b.year ∨
    (a.year = b.year ∧ (a.month < b.month ∨ (a.month = b.month ∧ a.day ≤ b.day)))

instance (a b : Date) : Decidable (dateLt a b) := by unfold dateLt; exact inferInstance

instance (a b : Date) : Decidable (dateLe a b) := by unfold dateLe; exact inferInstance

/-- Gregorian leap-year test, as `calendar.isleap`. -/
def isLeap (y : Nat) : Bool :=
  (y % 4 == 0 && y % 100 != 0) || (y % 400 == 0)

/-- Number of days in a month, as returned by `calendar.monthrange(year, month)[1]`. -/
def daysInMonth (y m : Nat) : Nat :=
  if m = 2 then (if isLeap y then 29 else 28)
  else if m = 4 ∨ m = 6 ∨ m = 9 ∨ m = 11 then 30
  else 31

/-- Predicate for a well-formed calendar date (what Python `datetime.date` admits,
with the year bound relaxed upward). -/
def ValidDate (d : Date) : Prop :=
  1 ≤ d.year ∧ 1 ≤ d.month ∧ d.month ≤ 12 ∧ 1 ≤ d.day ∧ d.day ≤ daysInMonth d.year d.month

instance (d : Date) : Decidable (ValidDate d) := by unfold ValidDate; exact inferInstance

/-- Embeds `_safe_day(year, month, day)` of `crud.py`/`main.py`: clamp a
day-of-month to the last valid day of that month. -/
def safe_day (year month day : Nat) : Nat :=
  min day (daysInMonth year month)

/-- Embeds `_add_months(value, months)` of `crud.py`/`main.py`. -/
def add_months (value : Date) (months : Nat) : Date :=
  let monthIdx := value.month - 1 + months
  let year := value.year + monthIdx / 12
  let month := monthIdx % 12 + 1
  ⟨year, month, safe_day year month value.day⟩

/-- Linearisation of the year/month pair, used for termination measures. -/
def monthIndex (d : Date) : Nat :=
  d.year * 12 + (d.month - 1)

/-- Day before a given date (Python `d - timedelta(days=1)`). -/
def pred_day (d : Date) : Date :=
  if 1 < d.day then ⟨d.year, d.month, d.day - 1⟩
  else if 1 < d.month then ⟨d.year, d.month - 1, daysInMonth d.year (d.month - 1)⟩
  else ⟨d.year - 1, 12, 31⟩

/-- Year-tracking mode of a card (`models.YearTrackingMode`). -/
inductive YearTrackingMode where
  | calendar
  | anniversary
deriving DecidableEq, Repr

/-- Benefit reset frequency (`models.BenefitFrequency`). -/
inductive BenefitFrequency where
  | monthly
  | quarterly
  | semiannual
  | yearly
deriving DecidableEq, Repr

/-- Benefit tracking behaviour (`models.BenefitType`). -/
inductive BenefitType where
  | standard
  | incremental
  | cumulative
deriving DecidableEq, Repr

/-- Engine-relevant fields of `models.CreditCard`. -/
structure CreditCard where
  id : Nat
  card_name : String
  annual_fee : ℚ
  fee_due_date : Date
  year_tracking_mode : YearTrackingMode

/-- Embeds `_compute_cycle_bounds(card, mode, reference)` (identical in
`crud.py` and `main.py`). -/
def compute_cycle_bounds (card : CreditCard) (mode : YearTrackingMode)
    (reference : Date) : Date × Date :=
  match mode with
  | .anniversary =>
      let dueMonth := card.fee_due_date.month
      let dueDay := card.fee_due_date.day
      let firstEnd : Date :=
        ⟨reference.year, dueMonth, safe_day reference.year dueMonth dueDay⟩
      let cycleEnd : Date :=
        if dateLe firstEnd reference then
          ⟨reference.year + 1, dueMonth, safe_day (reference.year + 1) dueMonth dueDay⟩
        else firstEnd
      let cycleStart : Date :=
        ⟨cycleEnd.year - 1, dueMonth, safe_day (cycleEnd.year - 1) dueMonth dueDay⟩
      (cycleStart, cycleEnd)
  | .calendar =>
      (⟨reference.year, 1, 1⟩, ⟨reference.year + 1, 1, 1⟩)

/-- Month abbreviation as produced by `strftime('%b')` (C locale). -/
def monthAbbrev : Nat → String
  | 1 => "Jan" | 2 => "Feb" | 3 => "Mar" | 4 => "Apr"
  | 5 => "May" | 6 => "Jun" | 7 => "Jul" | 8 => "Aug"
  | 9 => "Sep" | 10 => "Oct" | 11 => "Nov" | 12 => "Dec"
  | _ => ""

/-- Zero-padded two-digit rendering, as `strftime('%d')`/`strftime('%m')`. -/
def pad2 (n : Nat) : String :=
  if n < 10 then "0" ++ toString n else toString n

/-- Zero-padded four-digit rendering, as `strftime('%Y')`. -/
def pad4 (n : Nat) : String :=
  if n < 10 then "000" ++ toString n
  else if n < 100 then "00" ++ toString n
  else if n < 1000 then "0" ++ toString n
  else toString n

/-- Embeds `_format_range_label(window_start, window_end)` of `main.py`. -/
def format_range_label (window_start window_end : Date) : String :=
  let inclusiveEnd := pred_day window_end
  let startLabel := monthAbbrev window_start.month ++ " " ++ toString window_start.day
  let endLabel := monthAbbrev inclusiveEnd.month ++ " " ++ toString inclusiveEnd.day
  if window_start.year = inclusiveEnd.year then
    startLabel ++ " – " ++ endLabel
  else
    startLabel ++ " " ++ toString window_start.year ++ " – " ++
      endLabel ++ " " ++ toString inclusiveEnd.year

/-- Embeds `_format_frequency_label(frequency, index, window_start, window_end,
is_calendar_year)` of `main.py`. -/
def format_frequency_label (frequency : BenefitFrequency) (index : Nat)
    (window_start window_end : Date) (isCalendarYear : Bool) : String :=
  let inclusiveEnd := pred_day window_end
  match frequency with
  | .monthly =>
      if isCalendarYear then monthAbbrev window_start.month
      else
        "(" ++ monthAbbrev window_start.month ++ " " ++ pad2 window_start.day ++
          " - " ++ monthAbbrev inclusiveEnd.month ++ " " ++ pad2 inclusiveEnd.day ++ ")"
  | .quarterly =>
      let pfx := "Q" ++ toString index
      if isCalendarYear then
        "(" ++ pfx ++ ": " ++ monthAbbrev window_start.month ++ " - " ++
          monthAbbrev inclusiveEnd.month ++ ")"
      else
        "(" ++ pfx ++ ": " ++ monthAbbrev window_start.month ++ " " ++
          pad2 window_start.day ++ " - " ++ monthAbbrev inclusiveEnd.month ++ " " ++
          pad2 inclusiveEnd.day ++ ")"
  | .semiannual =>
      let pfx := "H" ++ toString index
      if isCalendarYear then
        "(" ++ pfx ++ ": " ++ monthAbbrev window_start.month ++ " - " ++
          monthAbbrev inclusiveEnd.month ++ ")"
      else
        "(" ++ pfx ++ ": " ++ monthAbbrev window_start.month ++ " " ++
          pad2 window_start.day ++ " - " ++ monthAbbrev inclusiveEnd.month ++ " " ++
          pad2 inclusiveEnd.day ++ ")"
  | .yearly =>
      if isCalendarYear then toString window_start.year
      else
        "(" ++ pad2 window_start.month ++ "/" ++ pad2 window_start.day ++ "/" ++
          pad4 window_start.year ++ " - " ++ pad2 inclusiveEnd.month ++ "/" ++
          pad2 inclusiveEnd.day ++ "/" ++ pad4 inclusiveEnd.year ++ ")"

/-- Window length in months per frequency (`months_map` of
`_enumerate_frequency_windows` in `main.py`). -/
def monthsMap : BenefitFrequency → Nat
  | .monthly => 1
  | .quarterly => 3
  | .semiannual => 6
  | .yearly => 12

/-- One enumerated sub-window of a cycle: the dict
`{"start": …, "end": …, "label": …, "index": …}` built by
`_enumerate_frequency_windows`.  The Python key `"end"` is a Lean keyword and
is rendered as the field `stop`. -/
structure FrequencyWindow where
  start : Date
  stop : Date
  label : String
  index : Nat
deriving DecidableEq, Repr

/-- Loop body of `_enumerate_frequency_windows` (`main.py`): repeatedly add
`months` months from the cursor, clamping the final window at `cycleEnd`.
The Python `while` loop terminates because each step advances the cursor;
the embedding makes this explicit with a fuel argument, and
`enumerate_frequency_windows` supplies enough fuel for the loop to finish. -/
def enumWindowsGo (months : Nat) (cycleEnd : Date) (frequency : BenefitFrequency)
    (isCalendarYear : Bool) : Nat → Date → Nat → List FrequencyWindow
  | 0, _, _ => []
  | fuel + 1, cursor, index =>
      if dateLt cursor cycleEnd then
        let windowEnd0 := add_months cursor months
        let windowEnd := if dateLt cycleEnd windowEnd0 then cycleEnd else windowEnd0
        { start := cursor, stop := windowEnd,
          label := format_frequency_label frequency index cursor windowEnd isCalendarYear,
          index := index } ::
          enumWindowsGo months cycleEnd frequency isCalendarYear fuel windowEnd (index + 1)
      else []

/-- Fuel that over-approximates the iteration count of the window loop. -/
def windowFuel (cycleStart cycleEnd : Date) : Nat :=
  monthIndex cycleEnd - monthIndex cycleStart + 1

/-- Embeds `_enumerate_frequency_windows(cycle_start, cycle_end, frequency,
is_calendar_year)` of `main.py`.  The `if not months` branch of the source is
unreachable here because `BenefitFrequency` has exactly the four mapped
constructors. -/
def enumerate_frequency_windows (cycleStart cycleEnd : Date)
    (frequency : BenefitFrequency) (isCalendarYear : Bool) : List FrequencyWindow :=
  let months := monthsMap frequency
  let windows := enumWindowsGo months cycleEnd frequency isCalendarYear
    (windowFuel cycleStart cycleEnd) cycleStart 1
  if windows.isEmpty then
    [{ start := cycleStart, stop := cycleEnd,
       label := format_frequency_label frequency 1 cycleStart cycleEnd isCalendarYear,
       index := 1 }]
  else windows

/-- Row of `models.BenefitWindowExclusion`. -/
structure BenefitWindowExclusion where
  id : Nat
  benefit_id : Nat
  window_start : Date
  window_end : Date
  window_label : Option String
  window_index : Option Nat
deriving DecidableEq, Repr

/-- Embeds `_window_matches_frequency_window(window, exclusion)` of `main.py`:
match by index, by exact date range, or by (truthy) label. -/
def window_matches_frequency_window (window : FrequencyWindow)
    (exclusion : BenefitWindowExclusion) : Bool :=
  if (match exclusion.window_index with
      | some i => decide (i = window.index)
      | none => false) then true
  else if exclusion.window_start = window.start ∧ exclusion.window_end = window.stop then
    true
  else
    match exclusion.window_label with
    | some s => decide (s ≠ "") && decide (s = window.label)
    | none => false

/-- Embeds `_filter_frequency_windows(windows, exclusions)` of `main.py`. -/
def filter_frequency_windows (windows : List FrequencyWindow)
    (exclusions : List BenefitWindowExclusion) : List FrequencyWindow :=
  if exclusions.isEmpty then windows
  else windows.filter fun window =>
    !(exclusions.any (window_matches_frequency_window window))

/-- Embeds `_window_matches_exclusion(window_start, window_end, window_index,
exclusion)` of `crud.py`.  Unlike the `main.py` matcher it receives no label
and only tests the (truthy) index and the exact date range. -/
def window_matches_exclusion (window_start window_end : Date) (window_index : Nat)
    (exclusion : BenefitWindowExclusion) : Bool :=
  if (match exclusion.window_index with
      | some i => decide (i ≠ 0) && decide (i = window_index)
      | none => false) then true
  else if exclusion.window_start = window_start ∧ exclusion.window_end = window_end then
    true
  else false

/-- Engine-relevant fields of `models.Benefit`.  `value` is a non-nullable
column (default 0); `window_values` is a nullable JSON list whose entries are
floats (`normalise_window_values` strips nulls before storing).  `used_at`
timestamps are abstracted to naturals. -/
structure Benefit where
  id : Nat
  credit_card_id : Nat
  name : String
  frequency : BenefitFrequency
  type : BenefitType
  value : ℚ
  expected_value : Option ℚ
  window_values : Option (List ℚ)
  window_tracking_mode : Option YearTrackingMode
  expiration_date : Option Date
  is_used : Bool
  used_at : Option Nat
deriving DecidableEq, Repr

/-- Row of `models.BenefitRedemption`. -/
structure BenefitRedemption where
  id : Nat
  benefit_id : Nat
  label : String
  amount : ℚ
  occurred_on : Date
deriving DecidableEq, Repr

/-- Half-open date-range test over the optional bounds of
`redemption_summary_for_benefits`: `start <= occurred_on` when a start bound is
given and `occurred_on < end` when an end bound is given. -/
def redemptionInRange (startDate endDate : Option Date) (r : BenefitRedemption) : Bool :=
  (match startDate with
   | some s => decide (dateLe s r.occurred_on)
   | none => true) &&
  (match endDate with
   | some e => decide (dateLt r.occurred_on e)
   | none => true)

/-- Embeds `redemption_summary_for_benefits(session, benefit_ids, start_date,
end_date)` of `crud.py`: the SQL `SELECT benefit_id, SUM(amount), COUNT(id) …
GROUP BY benefit_id` over the redemption ledger.  The grouped query yields one
row per benefit id that has at least one matching redemption, so ids without
matching rows are absent from the result. -/
def redemption_summary_for_benefits (ledger : List BenefitRedemption)
    (benefit_ids : List Nat) (startDate endDate : Option Date) :
    List (Nat × ℚ × Nat) :=
  if benefit_ids.isEmpty then []
  else
    let rows := ledger.filter fun r =>
      benefit_ids.contains r.benefit_id && redemptionInRange startDate endDate r
    let groups := (rows.map (fun r => r.benefit_id)).dedup
    groups.map fun b =>
      (b, ((rows.filter (fun r => r.benefit_id == b)).map (fun r => r.amount)).sum,
        (rows.filter (fun r => r.benefit_id == b)).length)

/-- Reading a summary map with a default, as the Python call sites
`totals.get(benefit_id, (0.0, 0))`. -/
def summaryGet (summary : List (Nat × ℚ × Nat)) (benefit_id : Nat) : ℚ × Nat :=
  (summary.lookup benefit_id).getD (0, 0)

/-- Loop body of `_resolve_window_bounds` (`crud.py`): the same cursor loop as
`_enumerate_frequency_windows` but producing bare `(start, end, index)`
triples and no labels.  Fuel-based for the same reason as `enumWindowsGo`. -/
def crudWindowsGo (months : Nat) (cycleEnd : Date) :
    Nat → Date → Nat → List (Date × Date × Nat)
  | 0, _, _ => []
  | fuel + 1, cursor, index =>
      if dateLt cursor cycleEnd then
        let windowEnd0 := add_months cursor months
        let windowEnd := if dateLt cycleEnd windowEnd0 then cycleEnd else windowEnd0
        (cursor, windowEnd, index) ::
          crudWindowsGo months cycleEnd fuel windowEnd (index + 1)
      else []

/-- The full window list enumerated inside `_resolve_window_bounds`
(`crud.py`) for a benefit's own cycle. -/
def crud_cycle_windows (card : CreditCard) (benefit : Benefit)
    (reference : Date) : List (Date × Date × Nat) :=
  let mode := benefit.window_tracking_mode.getD card.year_tracking_mode
  let bounds := compute_cycle_bounds card mode reference
  crudWindowsGo (monthsMap benefit.frequency) bounds.2
    (windowFuel bounds.1 bounds.2) bounds.1 1

/-- Embeds `_resolve_window_bounds(session, card, benefit, reference)` of
`crud.py`, with the benefit's exclusion rows passed explicitly.  The
`months_map.get` fallback of the source is unreachable because the frequency
enum is closed and `yearly` is handled first. -/
def resolve_window_bounds (exclusions : List BenefitWindowExclusion)
    (card : CreditCard) (benefit : Benefit) (reference : Date) :
    Date × Date × Nat :=
  let mode := benefit.window_tracking_mode.getD card.year_tracking_mode
  let bounds := compute_cycle_bounds card mode reference
  if benefit.frequency = .yearly then (bounds.1, bounds.2, 1)
  else
    let windows := crud_cycle_windows card benefit reference
    let activeWindows := windows.filter fun w =>
      !(exclusions.any (window_matches_exclusion w.1 w.2.1 w.2.2))
    if activeWindows.isEmpty then (bounds.1, bounds.2, 1)
    else
      match activeWindows.find? fun w =>
          decide (dateLe w.1 reference) && decide (dateLt reference w.2.1) with
      | some w => w
      | none => activeWindows.getLast?.getD (bounds.1, bounds.2, 1)

/-- Embeds `_resolve_window_target(benefit, window_index)` of `crud.py`.  In
the source a stored `window_values` entry is additionally tested against
`None`, which cannot occur because `normalise_window_values` strips nulls
before storing; likewise `benefit.value` is a non-nullable column, so the
final `0.0` fallback of the source is unreachable. -/
def resolve_window_target (benefit : Benefit) (window_index : Nat) : ℚ :=
  let wi := if window_index = 0 then 1 else window_index
  let windowValues := benefit.window_values.getD []
  let idx := wi - 1
  if h : idx < windowValues.length then windowValues.get ⟨idx, h⟩
  else benefit.value

/-- The `should_be_used` decision of `sync_benefit_usage_status` (`crud.py`,
lines 694-710): resolve the current window, aggregate the window-scoped
redemption totals (empty when the window is degenerate), and compare against
the per-window target (incremental) or the redemption count (standard). -/
def sync_should_be_used (ledger : List BenefitRedemption)
    (exclusions : List BenefitWindowExclusion) (card : CreditCard)
    (benefit : Benefit) (today : Date) : Bool :=
  let resolved := resolve_window_bounds exclusions card benefit today
  let totals :=
    if dateLe resolved.2.1 resolved.1 then []
    else redemption_summary_for_benefits ledger [benefit.id]
      (some resolved.1) (some resolved.2.1)
  let totalAmount := (summaryGet totals benefit.id).1
  let count := (summaryGet totals benefit.id).2
  if benefit.type = .incremental then
    let targetValue := resolve_window_target benefit resolved.2.2
    decide (0 < targetValue) && decide (targetValue ≤ totalAmount)
  else decide (0 < count)

/-- Embeds `sync_benefit_usage_status(session, benefit)` of `crud.py` as a
pure state transformer: the ledger, the benefit's exclusion rows, "today" and
the `datetime.utcnow()` timestamp are explicit inputs, and the returned
benefit reflects the state after the conditional commit. -/
def sync_benefit_usage_status (ledger : List BenefitRedemption)
    (exclusions : List BenefitWindowExclusion) (card : CreditCard)
    (benefit : Benefit) (today : Date) (now : Nat) : Benefit :=
  if benefit.type ≠ .incremental ∧ benefit.type ≠ .standard then benefit
  else
    let shouldBeUsed := sync_should_be_used ledger exclusions card benefit today
    if benefit.is_used ≠ shouldBeUsed then
      { benefit with
          is_used := shouldBeUsed,
          used_at := if shouldBeUsed then some now else none }
    else benefit

/-- Sum of the amounts of a benefit's redemptions dated inside a half-open
window — the spec's "redemption sum restricted to the current window's date
bounds", written directly as a filtered sum over the ledger. -/
def window_redemption_total (ledger : List BenefitRedemption) (benefit_id : Nat)
    (windowStart windowEnd : Date) : ℚ :=
  ((ledger.filter fun r =>
      r.benefit_id == benefit_id &&
        redemptionInRange (some windowStart) (some windowEnd) r).map
    (fun r => r.amount)).sum

/-- The spec's description of the incremental target: the `window_values`
entry at the current window's original 1-based index when `window_values` is
set and has an entry there, else the flat `value`. -/
def spec_window_target (benefit : Benefit) (window_index : Nat) : ℚ :=
  match benefit.window_values with
  | some wv =>
      if h : window_index - 1 < wv.length then wv.get ⟨window_index - 1, h⟩
      else benefit.value
  | none => benefit.value

/-- Enriched benefit payload: the fields of `schemas.BenefitRead` consumed by
`compute_benefit_totals` (`main.py`). -/
structure BenefitRead where
  type : BenefitType
  value : ℚ
  expected_value : Option ℚ
  is_used : Bool
  cycle_redemption_total : ℚ
  cycle_target_value : Option ℚ
  missed_window_value : ℚ
  expiration_date : Option Date
deriving DecidableEq, Repr

/-- Embeds `compute_benefit_totals(benefit)` of `main.py`, returning the
`(potential, utilized)` pair; `date.today()` is the explicit `today` input.
`float(benefit.value or 0)` is the identity on the non-nullable `value`
column, and `benefit.cycle_redemption_total or 0` likewise. -/
def compute_benefit_totals (benefit : BenefitRead) (today : Date) : ℚ × ℚ :=
  let cycleTotal := benefit.cycle_redemption_total
  let targetValue := benefit.cycle_target_value
  let expired :=
    match benefit.expiration_date with
    | some e => decide (dateLt e today)
    | none => false
  let missedPotential :=
    if benefit.type = .standard ∨ benefit.type = .incremental then
      benefit.missed_window_value
    else 0
  let pair :=
    if benefit.type = .standard then
      let basePotential := max (targetValue.getD benefit.value - missedPotential) 0
      (basePotential, if benefit.is_used then basePotential else 0)
    else if benefit.type = .incremental then
      let basePotential := max (targetValue.getD benefit.value - missedPotential) 0
      (basePotential, min cycleTotal basePotential)
    else
      match benefit.expected_value with
      | some ev => (ev, min cycleTotal ev)
      | none => (cycleTotal, cycleTotal)
  (if expired then 0 else pair.1, pair.2)

/-- Card-level accumulation of `build_card_response` (`main.py`): sum the
per-benefit `(potential, utilized)` pairs in list order. -/
def card_value_totals (benefits : List BenefitRead) (today : Date) : ℚ × ℚ :=
  benefits.foldl
    (fun acc b =>
      let t := compute_benefit_totals b today
      (acc.1 + t.1, acc.2 + t.2))
    (0, 0)

/-- Card-level `net_position = utilized_value - annual_fee`
(`build_card_response` in `main.py`). -/
def card_net_position (card : CreditCard) (benefits : List BenefitRead)
    (today : Date) : ℚ :=
  (card_value_totals benefits today).2 - card.annual_fee

/-- Embeds `_compute_benefit_expiration(benefit, context, fallback_cycle_end)`
of `main.py`; the context dict is passed as its two date entries. -/
def compute_benefit_expiration (benefit : Benefit) (cycle_end : Option Date)
    (window_end : Option Date) (fallback_cycle_end : Option Date) : Option Date :=
  let cycleEnd :=
    match cycle_end with
    | some d => some d
    | none => fallback_cycle_end
  let expectedExpiration : Option Date :=
    if benefit.frequency = .yearly then cycleEnd.map pred_day
    else window_end.map pred_day
  if benefit.window_tracking_mode ≠ none ∧ expectedExpiration ≠ none then
    expectedExpiration
  else
    match benefit.expiration_date with
    | some e =>
        if expectedExpiration ≠ none ∧ benefit.window_tracking_mode ≠ none ∧
            expectedExpiration ≠ some e then
          expectedExpiration
        else some e
    | none => expectedExpiration

/-- Modelled from the spec (for comparison with the code): "the benefit's
effective expiration date (explicit `expiration_date`, or derived as the last
day of its current/yearly window if unset)" — the explicit date always wins
when present. -/
def claim_effective_expiration (benefit : Benefit) (cycle_end : Option Date)
    (window_end : Option Date) (fallback_cycle_end : Option Date) : Option Date :=
  match benefit.expiration_date with
  | some e => some e
  | none =>
      let cycleEnd :=
        match cycle_end with
        | some d => some d
        | none => fallback_cycle_end
      if benefit.frequency = .yearly then cycleEnd.map pred_day
      else window_end.map pred_day

/-- The string value of a frequency (`BenefitFrequency.value` in Python). -/
def frequencyValue : BenefitFrequency → String
  | .monthly => "monthly"
  | .quarterly => "quarterly"
  | .semiannual => "semiannual"
  | .yearly => "yearly"

/-- Embeds `WINDOW_COUNT_BY_FREQUENCY` of `schemas.py`: expected
`window_values` length per frequency; absent for `yearly`. -/
def WINDOW_COUNT_BY_FREQUENCY : BenefitFrequency → Option Nat
  | .monthly => some 12
  | .quarterly => some 4
  | .semiannual => some 2
  | .yearly => none

/-- Embeds `normalise_window_values(frequency, values)` of `schemas.py`.
Entries are rationals because every caller passes a pydantic-validated
`List[float]`, which makes the source's null-stripping step the identity; the
numeric-coercion `try/except` is likewise dead for already-numeric input. -/
def normalise_window_values (frequency : BenefitFrequency)
    (values : Option (List ℚ)) : Except String (Option (List ℚ)) :=
  match values with
  | none => .ok none
  | some vs =>
      let cleaned := vs
      if cleaned.isEmpty then .ok none
      else
        match WINDOW_COUNT_BY_FREQUENCY frequency with
        | none =>
            .error "Custom window values are only supported for monthly, quarterly, or semiannual benefits."
        | some expected =>
            if cleaned.length ≠ expected then
              .error ("Expected " ++ toString expected ++ " values for a " ++
                frequencyValue frequency ++ " benefit, received " ++
                toString cleaned.length ++ ".")
            else if cleaned.any (fun v => decide (v < 0)) then
              .error "Window values must be zero or greater."
            else .ok (some cleaned)

/-- Update payload `schemas.BenefitUpdate`.  Fields whose Python handling
distinguishes "absent" from "explicitly null" (via `model_fields_set`) are
doubly optional: the outer `Option` is the set/unset flag. -/
structure BenefitUpdate where
  name : Option String := none
  frequency : Option BenefitFrequency := none
  type : Option BenefitType := none
  value : Option ℚ := none
  expiration_date : Option (Option Date) := none
  is_used : Option Bool := none
  expected_value : Option (Option ℚ) := none
  window_values : Option (Option (List ℚ)) := none
  window_tracking_mode : Option (Option YearTrackingMode) := none

/-- Field updates of `update_benefit` (`crud.py` lines 156-175) performed
before the window-values normalisation: the type-change reset, the `setattr`
loop over set fields, and the explicit `value`/`expected_value` handling. -/
def update_benefit_fields (benefit : Benefit) (payload : BenefitUpdate) :
    Benefit :=
  let b1 :=
    match payload.type with
    | some t =>
        if t ≠ benefit.type then
          let b := { benefit with is_used := false, used_at := none }
          if t ≠ .cumulative then { b with expected_value := none }
          else { b with window_tracking_mode := none }
        else benefit
    | none => benefit
  let b2 := match payload.name with | some n => { b1 with name := n } | none => b1
  let b2 :=
    match payload.frequency with
    | some f => { b2 with frequency := f }
    | none => b2
  let b2 := match payload.type with | some t => { b2 with type := t } | none => b2
  let b2 :=
    match payload.expiration_date with
    | some e => { b2 with expiration_date := e }
    | none => b2
  let b2 :=
    match payload.window_tracking_mode with
    | some m => { b2 with window_tracking_mode := m }
    | none => b2
  let b3 := match payload.value with | some v => { b2 with value := v } | none => b2
  match payload.expected_value with
  | some ev => { b3 with expected_value := ev }
  | none => b3

/-- Tail of `update_benefit` (`crud.py` lines 185-210) after the
window-values handling: the clearing branch for a frequency outside the four
known values (unreachable with the closed enum, kept for fidelity), the
manual `is_used` handling for standard/cumulative benefits, and the final
commit plus usage sync. -/
def update_benefit_finish (ledger : List BenefitRedemption)
    (exclusions : List BenefitWindowExclusion) (card : CreditCard)
    (payload : BenefitUpdate) (b : Benefit) (today : Date) (now : Nat) :
    Benefit :=
  let b5 :=
    match payload.frequency with
    | some f =>
        if f = .monthly ∨ f = .quarterly ∨ f = .semiannual ∨ f = .yearly then b
        else { b with window_values := none, window_tracking_mode := none }
    | none => b
  let b6 :=
    match payload.is_used with
    | some u =>
        if b5.type = .standard then
          { b5 with is_used := u, used_at := if u then some now else none }
        else if b5.type = .cumulative then
          { b5 with is_used := u, used_at := if u then some now else none }
        else b5
    | none => b5
  sync_benefit_usage_status ledger exclusions card b6 today now

/-- Embeds `update_benefit(session, benefit, payload)` of `crud.py` as a pure
function.  A `ValueError` from `normalise_window_values` propagates before the
commit, so the error case leaves the stored benefit unchanged and no partial
update is ever persisted; the success case commits and then runs
`sync_benefit_usage_status`, exactly as the source does.  The
`target_frequency = new_frequency or benefit.frequency` of the source reads
the already-reassigned ORM attribute, which equals the payload frequency when
set and the original one otherwise. -/
def update_benefit (ledger : List BenefitRedemption)
    (exclusions : List BenefitWindowExclusion) (card : CreditCard)
    (benefit : Benefit) (payload : BenefitUpdate) (today : Date) (now : Nat) :
    Except String Benefit :=
  let b4 := update_benefit_fields benefit payload
  let targetFrequency := payload.frequency.getD benefit.frequency
  match payload.window_values with
  | some raw =>
      match raw with
      | none =>
          .ok (update_benefit_finish ledger exclusions card payload
            { b4 with window_values := none } today now)
      | some vs =>
          match normalise_window_values targetFrequency (some vs) with
          | .error e => .error e
          | .ok wv =>
              .ok (update_benefit_finish ledger exclusions card payload
                { b4 with window_values := wv } today now)
  | none =>
      .ok (update_benefit_finish ledger exclusions card payload b4 today now)

/-- Nominal windows-per-year count per frequency (12, 4, 2, 1), the reference
value-range of the spec. -/
def windowCountOf : BenefitFrequency → Nat
  | .monthly => 12
  | .quarterly => 4
  | .semiannual => 2
  | .yearly => 1

/-- Specification predicate for a window list that partitions the half-open
cycle `[cursor, ce)`: non-empty, first window starting at `cursor`, last
window ending at `ce`, contiguous (each window's end is the next window's
start), every window non-empty and inside the cycle, and indices consecutive
from `index`. -/
def WindowsSpec (cursor ce : Date) (index : Nat)
    (ws : List FrequencyWindow) : Prop :=
  ws ≠ [] ∧
  ws.head?.map (fun w => w.start) = some cursor ∧
  List.Chain' (fun a b => a.stop = b.start) ws ∧
  ws.getLast?.map (fun w => w.stop) = some ce ∧
  (∀ w ∈ ws, dateLt w.start w.stop ∧ dateLe w.stop ce ∧ dateLe cursor w.start ∧
    ValidDate w.start) ∧
  (∀ i, ∀ h : i < ws.length, (ws.get ⟨i, h⟩).index = index + i)

/-! Basic facts about the calendar arithmetic. -/

theorem daysInMonth_pos (y m : Nat) : 28 ≤ daysInMonth y m := by
  unfold daysInMonth
  split
  · split <;> omega
  · split <;> omega

theorem safe_day_pos (y m d : Nat) (hd : 1 ≤ d) : 1 ≤ safe_day y m d := by
  have := daysInMonth_pos y m
  unfold safe_day
  omega

theorem safe_day_le (y m d : Nat) : safe_day y m d ≤ daysInMonth y m := by
  unfold safe_day
  omega

theorem add_months_def (v : Date) (k : Nat) :
    add_months v k =
      ⟨v.year + (v.month - 1 + k) / 12, (v.month - 1 + k) % 12 + 1,
        safe_day (v.year + (v.month - 1 + k) / 12) ((v.month - 1 + k) % 12 + 1)
          v.day⟩ := rfl

theorem validDate_add_months (v : Date) (k : Nat) (hv : ValidDate v) :
    ValidDate (add_months v k) := by
  obtain ⟨hy, hm1, hm2, hd1, hd2⟩ := hv
  rw [add_months_def]
  refine ⟨?_, ?_, ?_, ?_, ?_⟩
  · show 1 ≤ v.year + (v.month - 1 + k) / 12
    omega
  · show 1 ≤ (v.month - 1 + k) % 12 + 1
    omega
  · show (v.month - 1 + k) % 12 + 1 ≤ 12
    omega
  · exact safe_day_pos _ _ _ hd1
  · exact safe_day_le _ _ _

theorem monthIndex_add_months (v : Date) (k : Nat) :
    monthIndex (add_months v k) = monthIndex v + k := by
  rw [add_months_def]
  unfold monthIndex
  show (v.year + (v.month - 1 + k) / 12) * 12 + ((v.month - 1 + k) % 12 + 1 - 1) =
    v.year * 12 + (v.month - 1) + k
  omega

theorem dateLt_of_monthIndex_lt (a b : Date) (ha : a.month ≤ 12) (hb : 1 ≤ b.month)
    (hb2 : b.month ≤ 12) (h : monthIndex a < monthIndex b) : dateLt a b := by
  unfold monthIndex at h
  unfold dateLt
  omega

theorem monthIndex_le_of_dateLe (a b : Date) (ha : a.month ≤ 12) (hb : 1 ≤ b.month)
    (h : dateLe a b) : monthIndex a ≤ monthIndex b := by
  unfold dateLe at h
  unfold monthIndex
  omega

theorem monthIndex_le_of_dateLt (a b : Date) (ha : a.month ≤ 12) (hb : 1 ≤ b.month)
    (h : dateLt a b) : monthIndex a ≤ monthIndex b := by
  unfold dateLt at h
  unfold monthIndex
  omega

theorem dateLe_of_not_dateLt (a b : Date) (h : ¬ dateLt a b) : dateLe b a := by
  unfold dateLt at h
  unfold dateLe
  omega

theorem dateLt_irrefl (a : Date) : ¬ dateLt a a := by
  unfold dateLt
  omega

theorem dateLe_refl (a : Date) : dateLe a a := by
  unfold dateLe
  omega

theorem dateLe_of_dateLt (a b : Date) (h : dateLt a b) : dateLe a b := by
  unfold dateLt at h
  unfold dateLe
  omega

theorem dateLe_trans (a b c : Date) (h1 : dateLe a b) (h2 : dateLe b c) :
    dateLe a c := by
  unfold dateLe at *
  omega

theorem dateLt_of_dateLt_of_dateLe (a b c : Date) (h1 : dateLt a b)
    (h2 : dateLe b c) : dateLt a c := by
  unfold dateLt at h1 ⊢
  unfold dateLe at h2
  omega

theorem dateLt_of_dateLe_of_dateLt (a b c : Date) (h1 : dateLe a b)
    (h2 : dateLt b c) : dateLt a c := by
  unfold dateLt at h2 ⊢
  unfold dateLe at h1
  omega

theorem dateLt_add_months (v : Date) (k : Nat) (hv : ValidDate v) (hk : 1 ≤ k) :
    dateLt v (add_months v k) := by
  obtain ⟨hy, hm1, hm2, hd1, hd2⟩ := hv
  refine dateLt_of_monthIndex_lt v (add_months v k) hm2 ?_ ?_ ?_
  · rw [add_months_def]
    show 1 ≤ (v.month - 1 + k) % 12 + 1
    omega
  · rw [add_months_def]
    show (v.month - 1 + k) % 12 + 1 ≤ 12
    omega
  · rw [monthIndex_add_months v k]
    omega

/-- C1: for every card and reference date, `compute_cycle_bounds` — in both
calendar and anniversary tracking modes — returns a half-open pair
`(start, end)` with `start ≤ R < end` whose endpoints are exactly twelve
months apart (same anchor month, consecutive years, day re-clamped per year
by `safe_day`). -/
theorem compute_cycle_bounds_contains_reference (card : CreditCard)
    (mode : YearTrackingMode) (reference : Date)
    (href : ValidDate reference) (hdue : ValidDate card.fee_due_date) :
    dateLe (compute_cycle_bounds card mode reference).1 reference ∧
    dateLt reference (compute_cycle_bounds card mode reference).2 ∧
    monthIndex (compute_cycle_bounds card mode reference).2 =
      monthIndex (compute_cycle_bounds card mode reference).1 + 12 ∧
    (compute_cycle_bounds card mode reference).2.year =
      (compute_cycle_bounds card mode reference).1.year + 1 ∧
    (compute_cycle_bounds card mode reference).2.month =
      (compute_cycle_bounds card mode reference).1.month := by
  obtain ⟨hry, hrm1, hrm2, hrd1, hrd2⟩ := href
  obtain ⟨hfy, hfm1, hfm2, hfd1, hfd2⟩ := hdue
  cases mode with
  | calendar =>
      simp only [compute_cycle_bounds]
      unfold dateLe dateLt monthIndex
      simp
      omega
  | anniversary =>
      simp only [compute_cycle_bounds]
      split
      · rename_i hle
        unfold dateLe at hle
        simp only [Nat.add_sub_cancel]
        unfold dateLe dateLt monthIndex safe_day at *
        have h1 := daysInMonth_pos reference.year card.fee_due_date.month
        have h2 := daysInMonth_pos (reference.year + 1) card.fee_due_date.month
        simp at *
        omega
      · rename_i hgt
        unfold dateLe at hgt
        unfold dateLe dateLt monthIndex safe_day at *
        have h1 := daysInMonth_pos reference.year card.fee_due_date.month
        have h2 := daysInMonth_pos (reference.year - 1) card.fee_due_date.month
        simp at *
        omega

/-- Witness for C1 at a concrete anniversary card and reference date. -/
theorem compute_cycle_bounds_contains_reference_witness :
    ValidDate (⟨2024, 5, 20⟩ : Date) ∧
    ValidDate (⟨2023, 8, 15⟩ : Date) ∧
    (dateLe (compute_cycle_bounds
        ⟨1, "W", 95, ⟨2023, 8, 15⟩, .anniversary⟩ .anniversary ⟨2024, 5, 20⟩).1
        ⟨2024, 5, 20⟩ ∧
      dateLt (⟨2024, 5, 20⟩ : Date) (compute_cycle_bounds
        ⟨1, "W", 95, ⟨2023, 8, 15⟩, .anniversary⟩ .anniversary ⟨2024, 5, 20⟩).2 ∧
      monthIndex (compute_cycle_bounds
        ⟨1, "W", 95, ⟨2023, 8, 15⟩, .anniversary⟩ .anniversary ⟨2024, 5, 20⟩).2 =
        monthIndex (compute_cycle_bounds
          ⟨1, "W", 95, ⟨2023, 8, 15⟩, .anniversary⟩ .anniversary ⟨2024, 5, 20⟩).1 + 12 ∧
      (compute_cycle_bounds
        ⟨1, "W", 95, ⟨2023, 8, 15⟩, .anniversary⟩ .anniversary ⟨2024, 5, 20⟩).2.year =
        (compute_cycle_bounds
          ⟨1, "W", 95, ⟨2023, 8, 15⟩, .anniversary⟩ .anniversary ⟨2024, 5, 20⟩).1.year + 1 ∧
      (compute_cycle_bounds
        ⟨1, "W", 95, ⟨2023, 8, 15⟩, .anniversary⟩ .anniversary ⟨2024, 5, 20⟩).2.month =
        (compute_cycle_bounds
          ⟨1, "W", 95, ⟨2023, 8, 15⟩, .anniversary⟩ .anniversary ⟨2024, 5, 20⟩).1.month) :=
  ⟨by decide, by decide,
    compute_cycle_bounds_contains_reference
      ⟨1, "W", 95, ⟨2023, 8, 15⟩, .anniversary⟩ .anniversary ⟨2024, 5, 20⟩
      (by decide) (by decide)⟩

/-! Structure of the window-enumeration loop. -/

theorem dateLe_iff (a b : Date) : dateLe a b ↔ dateLt a b ∨ a = b := by
  cases a with
  | mk ay am ad =>
      cases b with
      | mk yb mb db =>
          simp only [dateLe, dateLt, Date.mk.injEq]
          omega

theorem enumWindowsGo_at_end (months : Nat) (ce : Date) (f : BenefitFrequency)
    (ic : Bool) (fuel index : Nat) :
    enumWindowsGo months ce f ic fuel ce index = [] := by
  cases fuel with
  | zero => rfl
  | succ n =>
      simp only [enumWindowsGo, if_neg (dateLt_irrefl ce)]

theorem enumWindowsGo_succ_of_lt (months : Nat) (ce : Date) (f : BenefitFrequency)
    (ic : Bool) (fuel : Nat) (cursor : Date) (index : Nat)
    (hlt : dateLt cursor ce) :
    enumWindowsGo months ce f ic (fuel + 1) cursor index =
      { start := cursor,
        stop := if dateLt ce (add_months cursor months) then ce
          else add_months cursor months,
        label := format_frequency_label f index cursor
          (if dateLt ce (add_months cursor months) then ce
            else add_months cursor months) ic,
        index := index } ::
        enumWindowsGo months ce f ic fuel
          (if dateLt ce (add_months cursor months) then ce
            else add_months cursor months)
          (index + 1) := by
  simp only [enumWindowsGo, if_pos hlt]

theorem windowsSpec_singleton (cursor ce : Date) (index : Nat) (lbl : String)
    (hlt : dateLt cursor ce) (hval : ValidDate cursor) :
    WindowsSpec cursor ce index
      [{ start := cursor, stop := ce, label := lbl, index := index }] := by
  refine ⟨by simp, by simp, List.chain'_singleton _, by simp, ?_, ?_⟩
  · intro w hw
    simp at hw
    subst hw
    exact ⟨hlt, dateLe_refl ce, dateLe_refl cursor, hval⟩
  · intro i h
    simp at h
    subst h
    simp

theorem windowsSpec_cons (cursor mid ce : Date) (index : Nat) (lbl : String)
    (rest : List FrequencyWindow)
    (hlt : dateLt cursor mid) (hval : ValidDate cursor)
    (hrest : WindowsSpec mid ce (index + 1) rest) :
    WindowsSpec cursor ce index
      ({ start := cursor, stop := mid, label := lbl, index := index } :: rest) := by
  obtain ⟨hne, hhead, hchain, hlast, hbounds, hidx⟩ := hrest
  obtain ⟨r, rs, hr⟩ := List.exists_cons_of_ne_nil hne
  subst hr
  simp only [List.head?_cons, Option.map_some] at hhead
  have hrstart : r.start = mid := Option.some.inj hhead
  have hmidle : dateLe mid ce := by
    obtain ⟨h1, h2, h3, h4⟩ := hbounds r (by simp)
    exact dateLe_trans mid r.start ce (hrstart ▸ dateLe_refl mid)
      (dateLe_trans r.start r.stop ce (dateLe_of_dateLt _ _ h1) h2)
  refine ⟨by simp, by simp, ?_, ?_, ?_, ?_⟩
  · rw [List.chain'_cons']
    refine ⟨?_, hchain⟩
    intro b hb
    simp at hb
    subst hb
    simp [hrstart]
  · rw [List.getLast?_cons_cons]
    exact hlast
  · intro w hw
    rcases List.mem_cons.mp hw with hw0 | hwrest
    · subst hw0
      exact ⟨hlt, hmidle, dateLe_refl cursor, hval⟩
    · obtain ⟨h1, h2, h3, h4⟩ := hbounds w hwrest
      exact ⟨h1, h2,
        dateLe_trans cursor mid w.start (dateLe_of_dateLt _ _ hlt) h3, h4⟩
  · intro i h
    cases i with
    | zero => simp
    | succ j =>
        have hj : j < (r :: rs).length := by
          simpa using h
        have := hidx j hj
        simp only [List.get_cons_succ]
        rw [show index + (j + 1) = index + 1 + j by omega]
        exact this


theorem enumWindowsGo_spec (months : Nat) (hm : 1 ≤ months) (ce : Date)
    (f : BenefitFrequency) (ic : Bool) (hce : ValidDate ce) :
    ∀ fuel cursor index, ValidDate cursor →
      monthIndex ce < monthIndex cursor + fuel →
      dateLt cursor ce →
      WindowsSpec cursor ce index (enumWindowsGo months ce f ic fuel cursor index) := by
  intro fuel
  induction fuel with
  | zero =>
      intro cursor index hval hfuel hlt
      exact absurd hfuel
        (by
          have := monthIndex_le_of_dateLt cursor ce hval.2.2.1 hce.2.1 hlt
          omega)
  | succ n ih =>
      intro cursor index hval hfuel hlt
      have hval0 : ValidDate (add_months cursor months) :=
        validDate_add_months cursor months hval
      have hMI0 : monthIndex (add_months cursor months) = monthIndex cursor + months :=
        monthIndex_add_months cursor months
      have hcur0 : dateLt cursor (add_months cursor months) :=
        dateLt_add_months cursor months hval hm
      rw [enumWindowsGo_succ_of_lt months ce f ic n cursor index hlt]
      by_cases hclamp : dateLt ce (add_months cursor months)
      · simp only [if_pos hclamp]
        rw [enumWindowsGo_at_end]
        exact windowsSpec_singleton cursor ce index _ hlt hval
      · simp only [if_neg hclamp]
        have hle0 : dateLe (add_months cursor months) ce :=
          dateLe_of_not_dateLt ce (add_months cursor months) hclamp
        rcases (dateLe_iff (add_months cursor months) ce).mp hle0 with hlt2 | heq
        · exact windowsSpec_cons cursor (add_months cursor months) ce index _ _
            hcur0 hval (ih (add_months cursor months) (index + 1) hval0
              (by omega) hlt2)
        · rw [heq, enumWindowsGo_at_end]
          exact windowsSpec_singleton cursor ce index _ (heq ▸ hcur0) hval

theorem enumerate_frequency_windows_spec (cs ce : Date) (f : BenefitFrequency)
    (ic : Bool) (hcs : ValidDate cs) (hce : ValidDate ce) (hlt : dateLt cs ce) :
    WindowsSpec cs ce 1 (enumerate_frequency_windows cs ce f ic) := by
  have hm : 1 ≤ monthsMap f := by cases f <;> simp [monthsMap]
  have hspec := enumWindowsGo_spec (monthsMap f) hm ce f ic hce
    (windowFuel cs ce) cs 1 hcs (by unfold windowFuel; omega) hlt
  unfold enumerate_frequency_windows
  have hne := hspec.1
  rw [if_neg (by simpa [List.isEmpty_iff] using hne)]
  exact hspec

theorem chain_cover (ws : List FrequencyWindow) (ce : Date) :
    ∀ d : Date, List.Chain' (fun a b => a.stop = b.start) ws →
      ws.getLast?.map (fun w => w.stop) = some ce →
      (∀ w0, ws.head? = some w0 → dateLe w0.start d) →
      dateLt d ce →
      ∃ w ∈ ws, dateLe w.start d ∧ dateLt d w.stop := by
  induction ws with
  | nil => intro d _ hlast _ _; simp at hlast
  | cons w rest ih =>
      intro d hchain hlast hhead hdlt
      by_cases hd : dateLt d w.stop
      · exact ⟨w, by simp, hhead w rfl, hd⟩
      · have hstop : dateLe w.stop d := dateLe_of_not_dateLt d w.stop hd
        cases rest with
        | nil =>
            simp only [List.getLast?_singleton, Option.map_some] at hlast
            have hwce : w.stop = ce := Option.some.inj hlast
            rw [hwce] at hstop
            exact absurd (dateLt_of_dateLe_of_dateLt ce d ce hstop hdlt)
              (dateLt_irrefl ce)
        | cons r rs =>
            have hrel : w.stop = r.start := (List.chain'_cons.mp hchain).1
            have hchain' : List.Chain' (fun a b => a.stop = b.start) (r :: rs) :=
              (List.chain'_cons.mp hchain).2
            have hlast' : (r :: rs).getLast?.map (fun w => w.stop) = some ce := by
              rwa [List.getLast?_cons_cons] at hlast
            obtain ⟨w', hw', h1, h2⟩ := ih d hchain' hlast'
              (by
                intro w0 hw0
                simp only [List.head?_cons, Option.some.injEq] at hw0
                subst hw0
                rw [← hrel]
                exact hstop)
              hdlt
            exact ⟨w', by simp [hw'], h1, h2⟩

/-- C2: for every cycle with `cycle_start < cycle_end` and every frequency,
the enumerated windows partition the cycle: they are non-empty and
chronological with 1-based indices, the first window starts at `cycle_start`,
the last window ends at `cycle_end`, each window's end is the next window's
start (no gaps, no overlaps), and their union is exactly
`[cycle_start, cycle_end)`. -/
theorem enumerate_frequency_windows_partition (cs ce : Date)
    (f : BenefitFrequency) (ic : Bool)
    (hcs : ValidDate cs) (hce : ValidDate ce) (hlt : dateLt cs ce) :
    enumerate_frequency_windows cs ce f ic ≠ [] ∧
    (enumerate_frequency_windows cs ce f ic).head?.map (fun w => w.start) =
      some cs ∧
    (enumerate_frequency_windows cs ce f ic).getLast?.map (fun w => w.stop) =
      some ce ∧
    List.Chain' (fun a b => a.stop = b.start)
      (enumerate_frequency_windows cs ce f ic) ∧
    (∀ i, ∀ h : i < (enumerate_frequency_windows cs ce f ic).length,
      ((enumerate_frequency_windows cs ce f ic).get ⟨i, h⟩).index = i + 1) ∧
    (∀ w ∈ enumerate_frequency_windows cs ce f ic, dateLt w.start w.stop) ∧
    (∀ d : Date, (dateLe cs d ∧ dateLt d ce) ↔
      ∃ w ∈ enumerate_frequency_windows cs ce f ic,
        dateLe w.start d ∧ dateLt d w.stop) := by
  obtain ⟨hne, hhead, hchain, hlast, hbounds, hidx⟩ :=
    enumerate_frequency_windows_spec cs ce f ic hcs hce hlt
  refine ⟨hne, hhead, hlast, hchain, ?_, ?_, ?_⟩
  · intro i h
    rw [hidx i h]
    omega
  · intro w hw
    exact (hbounds w hw).1
  · intro d
    constructor
    · rintro ⟨hged, hltd⟩
      refine chain_cover (enumerate_frequency_windows cs ce f ic) ce d hchain
        hlast ?_ hltd
      intro w0 hw0
      have : (enumerate_frequency_windows cs ce f ic).head?.map
          (fun w => w.start) = some w0.start := by
        rw [hw0]
        rfl
      rw [hhead] at this
      have := Option.some.inj this
      rw [← this]
      exact hged
    · rintro ⟨w, hw, h1, h2⟩
      obtain ⟨hb1, hb2, hb3, hb4⟩ := hbounds w hw
      exact ⟨dateLe_trans cs w.start d hb3 h1,
        dateLt_of_dateLt_of_dateLe d w.stop ce h2 hb2⟩

/-- Witness for C2 on the 2024 calendar-year cycle with quarterly windows. -/
theorem enumerate_frequency_windows_partition_witness :
    ValidDate (⟨2024, 1, 1⟩ : Date) ∧ ValidDate (⟨2025, 1, 1⟩ : Date) ∧
    dateLt (⟨2024, 1, 1⟩ : Date) ⟨2025, 1, 1⟩ ∧
    (enumerate_frequency_windows ⟨2024, 1, 1⟩ ⟨2025, 1, 1⟩ .quarterly true ≠ [] ∧
     (enumerate_frequency_windows ⟨2024, 1, 1⟩ ⟨2025, 1, 1⟩
       .quarterly true).head?.map (fun w => w.start) = some ⟨2024, 1, 1⟩ ∧
     (enumerate_frequency_windows ⟨2024, 1, 1⟩ ⟨2025, 1, 1⟩
       .quarterly true).getLast?.map (fun w => w.stop) = some ⟨2025, 1, 1⟩ ∧
     List.Chain' (fun a b => a.stop = b.start)
       (enumerate_frequency_windows ⟨2024, 1, 1⟩ ⟨2025, 1, 1⟩ .quarterly true) ∧
     (∀ i, ∀ h : i < (enumerate_frequency_windows ⟨2024, 1, 1⟩ ⟨2025, 1, 1⟩
         .quarterly true).length,
       ((enumerate_frequency_windows ⟨2024, 1, 1⟩ ⟨2025, 1, 1⟩
         .quarterly true).get ⟨i, h⟩).index = i + 1) ∧
     (∀ w ∈ enumerate_frequency_windows ⟨2024, 1, 1⟩ ⟨2025, 1, 1⟩ .quarterly true,
       dateLt w.start w.stop) ∧
     (∀ d : Date, (dateLe ⟨2024, 1, 1⟩ d ∧ dateLt d ⟨2025, 1, 1⟩) ↔
       ∃ w ∈ enumerate_frequency_windows ⟨2024, 1, 1⟩ ⟨2025, 1, 1⟩ .quarterly true,
         dateLe w.start d ∧ dateLt d w.stop)) :=
  ⟨by decide, by decide, by decide,
    enumerate_frequency_windows_partition ⟨2024, 1, 1⟩ ⟨2025, 1, 1⟩ .quarterly true
      (by decide) (by decide) (by decide)⟩

/-! Window counts. -/

theorem add_months_day_one (v : Date) (k : Nat) (hd : v.day = 1) :
    (add_months v k).day = 1 := by
  rw [add_months_def]
  show safe_day _ _ v.day = 1
  rw [hd]
  have := daysInMonth_pos (v.year + (v.month - 1 + k) / 12)
    ((v.month - 1 + k) % 12 + 1)
  unfold safe_day
  omega

theorem monthIndex_lt_of_dateLt_day1 (a b : Date) (ha : a.day = 1)
    (hb : b.day = 1) (ham1 : 1 ≤ a.month) (ham : a.month ≤ 12) (hbm : 1 ≤ b.month)
    (h : dateLt a b) : monthIndex a < monthIndex b := by
  unfold dateLt at h
  unfold monthIndex
  omega

theorem date_eq_of_monthIndex_eq (a b : Date) (ha1 : 1 ≤ a.month)
    (ha2 : a.month ≤ 12) (hb1 : 1 ≤ b.month) (hb2 : b.month ≤ 12)
    (hd : a.day = b.day) (h : monthIndex a = monthIndex b) : a = b := by
  unfold monthIndex at h
  cases a with
  | mk ya ma da =>
      cases b with
      | mk yb mb db =>
          simp only [Date.mk.injEq]
          simp only at ha1 ha2 hb1 hb2 hd h
          omega

theorem enumWindowsGo_nil_of_not_lt (months : Nat) (ce : Date)
    (f : BenefitFrequency) (ic : Bool) (fuel : Nat) (cursor : Date)
    (index : Nat) (h : ¬ dateLt cursor ce) :
    enumWindowsGo months ce f ic fuel cursor index = [] := by
  cases fuel with
  | zero => rfl
  | succ n => simp only [enumWindowsGo, if_neg h]

theorem enumWindowsGo_length_le (months : Nat) (hm : 1 ≤ months) (ce : Date)
    (f : BenefitFrequency) (ic : Bool) (hce : ValidDate ce) :
    ∀ fuel cursor index, ValidDate cursor →
      (enumWindowsGo months ce f ic fuel cursor index).length ≤
        (monthIndex ce - monthIndex cursor) / months + 1 := by
  intro fuel
  induction fuel with
  | zero =>
      intro cursor index _
      simp [enumWindowsGo]
  | succ n ih =>
      intro cursor index hval
      by_cases hlt : dateLt cursor ce
      · rw [enumWindowsGo_succ_of_lt months ce f ic n cursor index hlt]
        by_cases hclamp : dateLt ce (add_months cursor months)
        · simp only [if_pos hclamp, List.length_cons]
          rw [enumWindowsGo_at_end]
          simp
        · simp only [if_neg hclamp, List.length_cons]
          have hval0 : ValidDate (add_months cursor months) :=
            validDate_add_months cursor months hval
          have hMI0 : monthIndex (add_months cursor months) =
              monthIndex cursor + months := monthIndex_add_months cursor months
          have hle0 : dateLe (add_months cursor months) ce :=
            dateLe_of_not_dateLt ce (add_months cursor months) hclamp
          have hMIle : monthIndex (add_months cursor months) ≤ monthIndex ce :=
            monthIndex_le_of_dateLe (add_months cursor months) ce
              hval0.2.2.1 hce.2.1 hle0
          have ihr := ih (add_months cursor months) (index + 1) hval0
          rw [hMI0] at ihr hMIle
          have hdiv := Nat.add_div_right
            (monthIndex ce - monthIndex cursor - months)
            (show 0 < months by omega)
          have heq : monthIndex ce - monthIndex cursor - months + months =
              monthIndex ce - monthIndex cursor := by omega
          rw [heq] at hdiv
          have heq2 : monthIndex ce - (monthIndex cursor + months) =
              monthIndex ce - monthIndex cursor - months := by omega
          rw [heq2] at ihr
          omega
      · rw [enumWindowsGo_nil_of_not_lt months ce f ic (n + 1) cursor index hlt]
        simp

theorem enumWindowsGo_length_ge (months : Nat) (hm : 1 ≤ months) (ce : Date)
    (f : BenefitFrequency) (ic : Bool) (hce : ValidDate ce) :
    ∀ fuel cursor index, ValidDate cursor →
      monthIndex ce < monthIndex cursor + fuel →
      dateLt cursor ce →
      monthIndex ce - monthIndex cursor ≤
        (enumWindowsGo months ce f ic fuel cursor index).length * months := by
  intro fuel
  induction fuel with
  | zero =>
      intro cursor index hval hfuel hlt
      exact absurd hfuel
        (by
          have := monthIndex_le_of_dateLt cursor ce hval.2.2.1 hce.2.1 hlt
          omega)
  | succ n ih =>
      intro cursor index hval hfuel hlt
      have hval0 : ValidDate (add_months cursor months) :=
        validDate_add_months cursor months hval
      have hMI0 : monthIndex (add_months cursor months) =
          monthIndex cursor + months := monthIndex_add_months cursor months
      rw [enumWindowsGo_succ_of_lt months ce f ic n cursor index hlt]
      by_cases hclamp : dateLt ce (add_months cursor months)
      · simp only [if_pos hclamp, List.length_cons]
        rw [enumWindowsGo_at_end]
        have hMIle : monthIndex ce ≤ monthIndex (add_months cursor months) :=
          monthIndex_le_of_dateLt ce (add_months cursor months)
            hce.2.2.1 hval0.2.1 hclamp
        rw [hMI0] at hMIle
        simp
        omega
      · simp only [if_neg hclamp, List.length_cons]
        have hle0 : dateLe (add_months cursor months) ce :=
          dateLe_of_not_dateLt ce (add_months cursor months) hclamp
        rcases (dateLe_iff (add_months cursor months) ce).mp hle0 with hlt2 | heq
        · have ihr := ih (add_months cursor months) (index + 1) hval0
            (by omega) hlt2
          rw [hMI0] at ihr
          rw [Nat.succ_mul]
          omega
        · rw [heq, enumWindowsGo_at_end]
          have : monthIndex ce = monthIndex cursor + months := by
            rw [← heq, hMI0]
          simp
          omega

theorem enumWindowsGo_length_day1 (months : Nat) (hm : 1 ≤ months) (ce : Date)
    (f : BenefitFrequency) (ic : Bool) (hce : ValidDate ce) (hced : ce.day = 1) :
    ∀ fuel cursor index, ValidDate cursor → cursor.day = 1 →
      monthIndex ce < monthIndex cursor + fuel →
      dateLt cursor ce →
      (enumWindowsGo months ce f ic fuel cursor index).length =
        (monthIndex ce - monthIndex cursor + months - 1) / months := by
  intro fuel
  induction fuel with
  | zero =>
      intro cursor index hval hd hfuel hlt
      exact absurd hfuel
        (by
          have := monthIndex_le_of_dateLt cursor ce hval.2.2.1 hce.2.1 hlt
          omega)
  | succ n ih =>
      intro cursor index hval hd hfuel hlt
      have hval0 : ValidDate (add_months cursor months) :=
        validDate_add_months cursor months hval
      have hd0 : (add_months cursor months).day = 1 :=
        add_months_day_one cursor months hd
      have hMI0 : monthIndex (add_months cursor months) =
          monthIndex cursor + months := monthIndex_add_months cursor months
      have hMIlt : monthIndex cursor < monthIndex ce :=
        monthIndex_lt_of_dateLt_day1 cursor ce hd hced hval.2.1 hval.2.2.1 hce.2.1 hlt
      rw [enumWindowsGo_succ_of_lt months ce f ic n cursor index hlt]
      by_cases hclamp : dateLt ce (add_months cursor months)
      · simp only [if_pos hclamp, List.length_cons]
        rw [enumWindowsGo_at_end]
        have hMIle : monthIndex ce < monthIndex (add_months cursor months) :=
          monthIndex_lt_of_dateLt_day1 ce (add_months cursor months) hced hd0
            hce.2.1 hce.2.2.1 hval0.2.1 hclamp
        rw [hMI0] at hMIle
        have hlow : 1 * months ≤ monthIndex ce - monthIndex cursor + months - 1 := by
          omega
        have hhigh : monthIndex ce - monthIndex cursor + months - 1 <
            (1 + 1) * months := by omega
        rw [Nat.div_eq_of_lt_le hlow hhigh]
        simp
      · simp only [if_neg hclamp, List.length_cons]
        have hle0 : dateLe (add_months cursor months) ce :=
          dateLe_of_not_dateLt ce (add_months cursor months) hclamp
        rcases (dateLe_iff (add_months cursor months) ce).mp hle0 with hlt2 | heq
        · have hMIlt2 : monthIndex (add_months cursor months) < monthIndex ce :=
            monthIndex_lt_of_dateLt_day1 (add_months cursor months) ce hd0 hced
              hval0.2.1 hval0.2.2.1 hce.2.1 hlt2
          have ihr := ih (add_months cursor months) (index + 1) hval0 hd0
            (by omega) hlt2
          rw [hMI0] at ihr hMIlt2
          rw [ihr]
          have heq2 : monthIndex ce - (monthIndex cursor + months) + months - 1 =
              monthIndex ce - monthIndex cursor - months + months - 1 := by omega
          have heq3 : monthIndex ce - monthIndex cursor + months - 1 =
              (monthIndex ce - monthIndex cursor - 1) + months := by omega
          have heq4 : monthIndex ce - (monthIndex cursor + months) + months - 1 =
              monthIndex ce - monthIndex cursor - 1 := by omega
          rw [heq4, heq3, Nat.add_div_right _ (show 0 < months by omega)]
        · have hMIeq : monthIndex ce = monthIndex cursor + months := by
            rw [← heq, hMI0]
          rw [heq, enumWindowsGo_at_end]
          have hlow : 1 * months ≤ monthIndex ce - monthIndex cursor + months - 1 := by
            omega
          have hhigh : monthIndex ce - monthIndex cursor + months - 1 <
              (1 + 1) * months := by omega
          rw [Nat.div_eq_of_lt_le hlow hhigh]
          simp

theorem enumerate_frequency_windows_eq_go (cs ce : Date) (f : BenefitFrequency)
    (ic : Bool) (hcs : ValidDate cs) (hce : ValidDate ce) (hlt : dateLt cs ce) :
    enumerate_frequency_windows cs ce f ic =
      enumWindowsGo (monthsMap f) ce f ic (windowFuel cs ce) cs 1 := by
  have hm : 1 ≤ monthsMap f := by cases f <;> simp [monthsMap]
  have hspec := enumWindowsGo_spec (monthsMap f) hm ce f ic hce
    (windowFuel cs ce) cs 1 hcs (by unfold windowFuel; omega) hlt
  unfold enumerate_frequency_windows
  rw [if_neg (by simpa [List.isEmpty_iff] using hspec.1)]

theorem compute_cycle_bounds_valid (card : CreditCard) (mode : YearTrackingMode)
    (reference : Date) (href : ValidDate reference) (hy2 : 2 ≤ reference.year)
    (hdue : ValidDate card.fee_due_date) :
    ValidDate (compute_cycle_bounds card mode reference).1 ∧
    ValidDate (compute_cycle_bounds card mode reference).2 := by
  obtain ⟨hry, hrm1, hrm2, hrd1, hrd2⟩ := href
  obtain ⟨hfy, hfm1, hfm2, hfd1, hfd2⟩ := hdue
  cases mode with
  | calendar =>
      simp only [compute_cycle_bounds]
      unfold ValidDate
      have h1 := daysInMonth_pos reference.year 1
      have h2 := daysInMonth_pos (reference.year + 1) 1
      simp
      omega
  | anniversary =>
      simp only [compute_cycle_bounds]
      split
      · unfold ValidDate safe_day
        have h1 := daysInMonth_pos (reference.year + 1) card.fee_due_date.month
        have h2 := daysInMonth_pos reference.year card.fee_due_date.month
        simp [Nat.add_sub_cancel]
        omega
      · unfold ValidDate safe_day
        have h1 := daysInMonth_pos reference.year card.fee_due_date.month
        have h2 := daysInMonth_pos (reference.year - 1) card.fee_due_date.month
        simp
        omega

/-- C3 (amended): for every cycle produced by the cycle-bounds computation,
the window enumerator yields exactly 12 windows for monthly frequency, 4 for
quarterly, 2 for semiannual and 1 for yearly when the cycle is a calendar
year; for anniversary cycles it yields that count, or that count plus one
extra partial window when safe-day clamping shifts the anchor day mid-cycle. -/
theorem enumerate_window_counts (card : CreditCard) (reference : Date)
    (f : BenefitFrequency) (ic : Bool)
    (href : ValidDate reference) (hy2 : 2 ≤ reference.year)
    (hdue : ValidDate card.fee_due_date) :
    (enumerate_frequency_windows
        (compute_cycle_bounds card .calendar reference).1
        (compute_cycle_bounds card .calendar reference).2 f ic).length =
      windowCountOf f ∧
    windowCountOf f ≤
      (enumerate_frequency_windows
        (compute_cycle_bounds card .anniversary reference).1
        (compute_cycle_bounds card .anniversary reference).2 f ic).length ∧
    (enumerate_frequency_windows
        (compute_cycle_bounds card .anniversary reference).1
        (compute_cycle_bounds card .anniversary reference).2 f ic).length ≤
      windowCountOf f + 1 := by
  have hm : 1 ≤ monthsMap f := by cases f <;> simp [monthsMap]
  refine ⟨?_, ?_⟩
  · -- calendar mode: exact counts via the day-1 length formula
    have hv := compute_cycle_bounds_valid card .calendar reference href hy2 hdue
    have hb := compute_cycle_bounds_contains_reference card .calendar reference
      href hdue
    have hMI := hb.2.2.1
    have hlt : dateLt (compute_cycle_bounds card .calendar reference).1
        (compute_cycle_bounds card .calendar reference).2 :=
      dateLt_of_monthIndex_lt _ _ hv.1.2.2.1 hv.2.2.1 hv.2.2.2.1 (by omega)
    have heqgo := enumerate_frequency_windows_eq_go _ _ f ic hv.1 hv.2 hlt
    have hd1 : (compute_cycle_bounds card .calendar reference).1.day = 1 := rfl
    have hd2 : (compute_cycle_bounds card .calendar reference).2.day = 1 := rfl
    have hl := enumWindowsGo_length_day1 (monthsMap f) hm
      (compute_cycle_bounds card .calendar reference).2 f ic hv.2 hd2
      (windowFuel (compute_cycle_bounds card .calendar reference).1
        (compute_cycle_bounds card .calendar reference).2)
      (compute_cycle_bounds card .calendar reference).1 1 hv.1 hd1
      (by unfold windowFuel; omega) hlt
    rw [heqgo, hl]
    have h12 : monthIndex (compute_cycle_bounds card .calendar reference).2 -
        monthIndex (compute_cycle_bounds card .calendar reference).1 +
        monthsMap f - 1 = 12 + monthsMap f - 1 := by omega
    rw [h12]
    cases f <;> rfl
  · -- anniversary mode: the count bounds
    have hv := compute_cycle_bounds_valid card .anniversary reference href hy2 hdue
    have hb := compute_cycle_bounds_contains_reference card .anniversary reference
      href hdue
    have hMI := hb.2.2.1
    have hlt : dateLt (compute_cycle_bounds card .anniversary reference).1
        (compute_cycle_bounds card .anniversary reference).2 :=
      dateLt_of_monthIndex_lt _ _ hv.1.2.2.1 hv.2.2.1 hv.2.2.2.1 (by omega)
    have heqgo := enumerate_frequency_windows_eq_go _ _ f ic hv.1 hv.2 hlt
    have hge := enumWindowsGo_length_ge (monthsMap f) hm
      (compute_cycle_bounds card .anniversary reference).2 f ic hv.2
      (windowFuel (compute_cycle_bounds card .anniversary reference).1
        (compute_cycle_bounds card .anniversary reference).2)
      (compute_cycle_bounds card .anniversary reference).1 1 hv.1
      (by unfold windowFuel; omega) hlt
    have hle := enumWindowsGo_length_le (monthsMap f) hm
      (compute_cycle_bounds card .anniversary reference).2 f ic hv.2
      (windowFuel (compute_cycle_bounds card .anniversary reference).1
        (compute_cycle_bounds card .anniversary reference).2)
      (compute_cycle_bounds card .anniversary reference).1 1 hv.1
    rw [heqgo]
    have h12 : monthIndex (compute_cycle_bounds card .anniversary reference).2 -
        monthIndex (compute_cycle_bounds card .anniversary reference).1 = 12 := by
      omega
    rw [h12] at hge hle
    cases f <;> simp only [monthsMap, windowCountOf] at hge hle ⊢ <;> omega

/-- C3 counterexample: the claim asserts exactly 12 monthly windows for every
cycle the cycle-bounds computation produces, but the anniversary cycle of a
January-31 anchor card (reference 2024-02-15) spans 2024-01-31 to 2025-01-31
and enumerates 13 monthly windows: day clamping moves the cursor to the 29th
after February, leaving a final partial window. -/
theorem enumerate_window_counts_counterexample :
    compute_cycle_bounds ⟨1, "X", 0, ⟨2023, 1, 31⟩, .anniversary⟩ .anniversary
        ⟨2024, 2, 15⟩ = (⟨2024, 1, 31⟩, ⟨2025, 1, 31⟩) ∧
    (enumerate_frequency_windows ⟨2024, 1, 31⟩ ⟨2025, 1, 31⟩ .monthly
        false).length = 13 := by
  constructor
  · rfl
  · rfl

/-- Witness for the amended C3 at a concrete card and reference date. -/
theorem enumerate_window_counts_witness :
    ValidDate (⟨2024, 5, 20⟩ : Date) ∧ 2 ≤ (2024 : Nat) ∧
    ValidDate (⟨2023, 8, 15⟩ : Date) ∧
    ((enumerate_frequency_windows
        (compute_cycle_bounds ⟨1, "W", 95, ⟨2023, 8, 15⟩, .anniversary⟩
          .calendar ⟨2024, 5, 20⟩).1
        (compute_cycle_bounds ⟨1, "W", 95, ⟨2023, 8, 15⟩, .anniversary⟩
          .calendar ⟨2024, 5, 20⟩).2 .quarterly true).length =
      windowCountOf .quarterly ∧
    windowCountOf .quarterly ≤
      (enumerate_frequency_windows
        (compute_cycle_bounds ⟨1, "W", 95, ⟨2023, 8, 15⟩, .anniversary⟩
          .anniversary ⟨2024, 5, 20⟩).1
        (compute_cycle_bounds ⟨1, "W", 95, ⟨2023, 8, 15⟩, .anniversary⟩
          .anniversary ⟨2024, 5, 20⟩).2 .quarterly true).length ∧
    (enumerate_frequency_windows
        (compute_cycle_bounds ⟨1, "W", 95, ⟨2023, 8, 15⟩, .anniversary⟩
          .anniversary ⟨2024, 5, 20⟩).1
        (compute_cycle_bounds ⟨1, "W", 95, ⟨2023, 8, 15⟩, .anniversary⟩
          .anniversary ⟨2024, 5, 20⟩).2 .quarterly true).length ≤
      windowCountOf .quarterly + 1) :=
  ⟨by decide, by decide, by decide,
    enumerate_window_counts ⟨1, "W", 95, ⟨2023, 8, 15⟩, .anniversary⟩
      ⟨2024, 5, 20⟩ .quarterly true (by decide) (by decide) (by decide)⟩

/-! Exclusion matching. -/

/-- C5 (amended): the metrics/valuation path (`main.py`) removes a window
when the exclusion matches by index, OR by exact date range, OR by (non-empty)
label; the usage-sync path (`crud.py`) receives no label and removes a window
only when the exclusion matches by (truthy) index OR by exact date range.
Filtering preserves the original enumeration: the active set is a sublist of
the enumerated windows (so each survivor keeps its original index for value
lookup), and a window survives exactly when no exclusion matches it. -/
theorem window_exclusion_matching (w : FrequencyWindow)
    (e : BenefitWindowExclusion) (ws we : Date) (wi : Nat)
    (windows : List FrequencyWindow)
    (exclusions : List BenefitWindowExclusion) :
    (window_matches_frequency_window w e = true ↔
      (e.window_index = some w.index ∨
       (e.window_start = w.start ∧ e.window_end = w.stop) ∨
       (∃ s, e.window_label = some s ∧ s ≠ "" ∧ s = w.label))) ∧
    (window_matches_exclusion ws we wi e = true ↔
      ((∃ i, e.window_index = some i ∧ i ≠ 0 ∧ i = wi) ∨
       (e.window_start = ws ∧ e.window_end = we))) ∧
    (filter_frequency_windows windows exclusions).Sublist windows ∧
    (∀ w' : FrequencyWindow,
      w' ∈ filter_frequency_windows windows exclusions ↔
        (w' ∈ windows ∧
          ∀ e' ∈ exclusions, window_matches_frequency_window w' e' = false)) := by
  refine ⟨?_, ?_, ?_, ?_⟩
  · unfold window_matches_frequency_window
    cases he : e.window_index with
    | none =>
        cases hl : e.window_label with
        | none => simp [he, hl]
        | some s => simp [he, hl]
    | some i =>
        cases hl : e.window_label with
        | none =>
            by_cases hi : i = w.index
            · simp [he, hl, hi]
            · simp [he, hl, hi]
        | some s =>
            by_cases hi : i = w.index
            · simp [he, hl, hi]
            · simp [he, hl, hi]
  · unfold window_matches_exclusion
    cases he : e.window_index with
    | none => simp [he]
    | some i =>
        by_cases hi : i ≠ 0 ∧ i = wi
        · simp [he, hi.1, hi.2]
        · rcases not_and_or.mp hi with h0 | hne
          · have h0' : i = 0 := not_not.mp h0
            simp [he, h0']
          · simp [he, hne]
  · unfold filter_frequency_windows
    split
    · exact List.Sublist.refl windows
    · exact List.filter_sublist windows
  · intro w'
    unfold filter_frequency_windows
    split
    · rename_i hemp
      have : exclusions = [] := by simpa [List.isEmpty_iff] using hemp
      subst this
      simp
    · simp [List.mem_filter, List.any_eq_false]

/-- C5 counterexample: the first enumerated window of the 2024 calendar
monthly cycle carries label "Jan"; an exclusion row matching only by that
label is honoured by the metrics-path matcher but ignored by the usage-sync
matcher, so the two exclusion-applying paths disagree. -/
theorem window_exclusion_matching_counterexample :
    (enumerate_frequency_windows ⟨2024, 1, 1⟩ ⟨2025, 1, 1⟩ .monthly true).head? =
      some { start := ⟨2024, 1, 1⟩, stop := ⟨2024, 2, 1⟩,
             label := "Jan", index := 1 } ∧
    window_matches_frequency_window
      { start := ⟨2024, 1, 1⟩, stop := ⟨2024, 2, 1⟩, label := "Jan", index := 1 }
      ⟨5, 7, ⟨2030, 1, 1⟩, ⟨2030, 2, 1⟩, some "Jan", none⟩ = true ∧
    window_matches_exclusion ⟨2024, 1, 1⟩ ⟨2024, 2, 1⟩ 1
      ⟨5, 7, ⟨2030, 1, 1⟩, ⟨2030, 2, 1⟩, some "Jan", none⟩ = false :=
  ⟨rfl, rfl, rfl⟩

/-! Redemption aggregation. -/

theorem lookup_map_pair {α : Type} (l : List Nat) (g : Nat → α) (b : Nat) :
    (l.map (fun x => (x, g x))).lookup b = if b ∈ l then some (g b) else none := by
  induction l with
  | nil => simp
  | cons x xs ih =>
      simp only [List.map_cons, List.lookup]
      by_cases hbx : b = x
      · subst hbx
        simp
      · have : (b == x) = false := by simpa using hbx
        simp [this, ih, hbx]

theorem summary_rows_filter (ledger : List BenefitRedemption)
    (benefit_ids : List Nat) (startDate endDate : Option Date) (b : Nat)
    (hb : b ∈ benefit_ids) :
    (ledger.filter fun r =>
        benefit_ids.contains r.benefit_id &&
          redemptionInRange startDate endDate r).filter
      (fun r => r.benefit_id == b) =
    ledger.filter fun r =>
      r.benefit_id == b && redemptionInRange startDate endDate r := by
  rw [List.filter_filter]
  apply List.filter_congr
  intro r _
  by_cases hrb : r.benefit_id = b
  · have hcont : benefit_ids.contains r.benefit_id = true := by
      rw [hrb]
      exact List.elem_eq_true_of_mem hb
    simp [hrb, hcont, hb]
  · have : (r.benefit_id == b) = false := by simpa using hrb
    simp [this]

theorem summary_lookup_spec (ledger : List BenefitRedemption)
    (benefit_ids : List Nat) (startDate endDate : Option Date) (b : Nat)
    (hb : b ∈ benefit_ids) :
    ((redemption_summary_for_benefits ledger benefit_ids startDate
        endDate).lookup b = none ↔
      ledger.filter (fun r =>
        r.benefit_id == b && redemptionInRange startDate endDate r) = []) ∧
    summaryGet (redemption_summary_for_benefits ledger benefit_ids startDate
        endDate) b =
      (((ledger.filter fun r =>
          r.benefit_id == b && redemptionInRange startDate endDate r).map
            (fun r => r.amount)).sum,
       (ledger.filter fun r =>
          r.benefit_id == b && redemptionInRange startDate endDate r).length) := by
  have hne : benefit_ids.isEmpty = false := by
    cases benefit_ids with
    | nil => cases hb
    | cons x xs => rfl
  unfold redemption_summary_for_benefits summaryGet
  rw [if_neg (by simp [hne])]
  rw [lookup_map_pair]
  have hrows := summary_rows_filter ledger benefit_ids startDate endDate b hb
  by_cases hmem : b ∈ ((ledger.filter fun r =>
      benefit_ids.contains r.benefit_id &&
        redemptionInRange startDate endDate r).map fun r => r.benefit_id)
  · rw [if_pos (List.mem_dedup.mpr hmem)]
    constructor
    · constructor
      · intro h
        cases h
      · intro h
        exfalso
        obtain ⟨r, hr, hrb⟩ := List.mem_map.mp hmem
        have hrmem : r ∈ (ledger.filter fun r =>
            benefit_ids.contains r.benefit_id &&
              redemptionInRange startDate endDate r).filter
            (fun r => r.benefit_id == b) := by
          rw [List.mem_filter]
          exact ⟨hr, by simpa using hrb⟩
        rw [hrows, h] at hrmem
        cases hrmem
    · simp only [Option.getD_some]
      rw [hrows]
  · rw [if_neg (fun hc => hmem (List.mem_dedup.mp hc))]
    have hnil : ledger.filter (fun r =>
        r.benefit_id == b && redemptionInRange startDate endDate r) = [] := by
      rw [← hrows]
      rw [List.filter_eq_nil_iff]
      intro r hr
      intro hc
      exact hmem (List.mem_map.mpr ⟨r, hr, by simpa using hc⟩)
    refine ⟨by simp [hnil], ?_⟩
    rw [hnil]
    simp

/-- C4 (amended): `redemption_summary_for_benefits` returns a grouped map
whose keys are exactly the requested benefit ids with at least one matching
redemption; an id with no matching rows is absent from the map (there is no
key mapped to `(0.0, 0)`), and the call sites' defaulted read
`totals.get(id, (0.0, 0))` then yields precisely the filtered sum and count
(so empty totals for ids with no rows). -/
theorem redemption_summary_ids (ledger : List BenefitRedemption)
    (benefit_ids : List Nat) (startDate endDate : Option Date) (b : Nat)
    (hb : b ∈ benefit_ids) :
    ((redemption_summary_for_benefits ledger benefit_ids startDate
        endDate).lookup b = none ↔
      ledger.filter (fun r =>
        r.benefit_id == b && redemptionInRange startDate endDate r) = []) ∧
    summaryGet (redemption_summary_for_benefits ledger benefit_ids startDate
        endDate) b =
      (((ledger.filter fun r =>
          r.benefit_id == b && redemptionInRange startDate endDate r).map
            (fun r => r.amount)).sum,
       (ledger.filter fun r =>
          r.benefit_id == b && redemptionInRange startDate endDate r).length) :=
  summary_lookup_spec ledger benefit_ids startDate endDate b hb

/-- C4 counterexample: requested benefit id 1 has no redemption rows; the
claim requires the returned map to contain key 1 with empty totals (0.0, 0),
but the grouped query omits the key entirely. -/
theorem redemption_summary_ids_counterexample :
    (redemption_summary_for_benefits [] [1] none none).lookup 1 = none ∧
    (redemption_summary_for_benefits [] [1] none none).lookup 1 ≠
      some ((0 : ℚ), (0 : Nat)) := by
  constructor
  · rfl
  · intro h
    cases h

/-- Witness for the amended C4 at a concrete ledger and id. -/
theorem redemption_summary_ids_witness :
    (7 : Nat) ∈ [7] ∧
    (((redemption_summary_for_benefits
        [⟨1, 7, "Dinner", 50, ⟨2024, 5, 10⟩⟩] [7] (some ⟨2024, 5, 1⟩)
        (some ⟨2024, 6, 1⟩)).lookup 7 = none ↔
      ([⟨1, 7, "Dinner", 50, ⟨2024, 5, 10⟩⟩] :
          List BenefitRedemption).filter (fun r =>
        r.benefit_id == 7 &&
          redemptionInRange (some ⟨2024, 5, 1⟩) (some ⟨2024, 6, 1⟩) r) = []) ∧
    summaryGet (redemption_summary_for_benefits
        [⟨1, 7, "Dinner", 50, ⟨2024, 5, 10⟩⟩] [7] (some ⟨2024, 5, 1⟩)
        (some ⟨2024, 6, 1⟩)) 7 =
      ((([⟨1, 7, "Dinner", 50, ⟨2024, 5, 10⟩⟩] :
          List BenefitRedemption).filter (fun r =>
          r.benefit_id == 7 &&
            redemptionInRange (some ⟨2024, 5, 1⟩) (some ⟨2024, 6, 1⟩) r)).map
            (fun r => r.amount) |>.sum,
       (([⟨1, 7, "Dinner", 50, ⟨2024, 5, 10⟩⟩] :
          List BenefitRedemption).filter (fun r =>
          r.benefit_id == 7 &&
            redemptionInRange (some ⟨2024, 5, 1⟩) (some ⟨2024, 6, 1⟩) r)).length)) :=
  ⟨by decide,
    redemption_summary_ids [⟨1, 7, "Dinner", 50, ⟨2024, 5, 10⟩⟩] [7]
      (some ⟨2024, 5, 1⟩) (some ⟨2024, 6, 1⟩) 7 (by decide)⟩

/-! Window resolution in the usage-sync path. -/

theorem crudWindowsGo_index_ge (months : Nat) (ce : Date) :
    ∀ fuel cursor index, ∀ w ∈ crudWindowsGo months ce fuel cursor index,
      index ≤ w.2.2 := by
  intro fuel
  induction fuel with
  | zero =>
      intro cursor index w hw
      cases hw
  | succ n ih =>
      intro cursor index w hw
      by_cases hlt : dateLt cursor ce
      · simp only [crudWindowsGo, if_pos hlt] at hw
        rcases List.mem_cons.mp hw with hw0 | hwrest
        · subst hw0
          exact Nat.le_refl index
        · have := ih _ (index + 1) w hwrest
          omega
      · simp only [crudWindowsGo, if_neg hlt] at hw
        cases hw

theorem resolve_window_bounds_index_pos (exclusions : List BenefitWindowExclusion)
    (card : CreditCard) (benefit : Benefit) (reference : Date) :
    1 ≤ (resolve_window_bounds exclusions card benefit reference).2.2 := by
  simp only [resolve_window_bounds]
  split
  · exact Nat.le_refl 1
  · set active := (crud_cycle_windows card benefit reference).filter fun w =>
      !(exclusions.any (window_matches_exclusion w.1 w.2.1 w.2.2)) with hactive
    have hsub : ∀ w ∈ active, 1 ≤ w.2.2 := by
      intro w hw
      have hwin : w ∈ crud_cycle_windows card benefit reference :=
        List.mem_of_mem_filter hw
      unfold crud_cycle_windows at hwin
      exact crudWindowsGo_index_ge _ _ _ _ 1 w hwin
    split
    · exact Nat.le_refl 1
    · split
      · rename_i w hfind
        exact hsub w (List.mem_of_find?_eq_some hfind)
      · cases hlast : active.getLast? with
        | none => simp [hlast]
        | some w =>
            simp only [hlast, Option.getD_some]
            exact hsub w (List.mem_of_getLast?_eq_some hlast)

/-- C10: if every enumerated window of the benefit's cycle matches one of its
exclusions — so the active window list is empty — the usage-sync window
resolution neither raises nor returns nothing: it falls back to the whole
cycle `[cycle_start, cycle_end)` with window index 1, over which the sync then
aggregates redemptions. -/
theorem resolve_window_bounds_all_excluded
    (exclusions : List BenefitWindowExclusion) (card : CreditCard)
    (benefit : Benefit) (reference : Date)
    (hfreq : benefit.frequency ≠ .yearly)
    (hall : ∀ w ∈ crud_cycle_windows card benefit reference,
      exclusions.any (window_matches_exclusion w.1 w.2.1 w.2.2) = true) :
    resolve_window_bounds exclusions card benefit reference =
      ((compute_cycle_bounds card
          (benefit.window_tracking_mode.getD card.year_tracking_mode)
          reference).1,
       (compute_cycle_bounds card
          (benefit.window_tracking_mode.getD card.year_tracking_mode)
          reference).2, 1) := by
  simp only [resolve_window_bounds]
  rw [if_neg hfreq]
  have hactive : (crud_cycle_windows card benefit reference).filter (fun w =>
      !(exclusions.any (window_matches_exclusion w.1 w.2.1 w.2.2))) = [] := by
    rw [List.filter_eq_nil_iff]
    intro w hw
    simp [hall w hw]
  rw [hactive]
  rfl

/-- Witness for C10: a monthly benefit whose twelve calendar windows are all
excluded by index. -/
theorem resolve_window_bounds_all_excluded_witness :
    ((⟨7, 1, "Dining", .monthly, .incremental, 50, none, none, none, none,
        false, none⟩ : Benefit).frequency ≠ .yearly ∧
      ∀ w ∈ crud_cycle_windows ⟨1, "W", 95, ⟨2024, 8, 15⟩, .calendar⟩
          ⟨7, 1, "Dining", .monthly, .incremental, 50, none, none, none, none,
            false, none⟩ ⟨2024, 5, 20⟩,
        ((List.range 12).map fun i =>
          (⟨i, 7, ⟨2030, 1, 1⟩, ⟨2030, 2, 1⟩, none, some (i + 1)⟩ :
            BenefitWindowExclusion)).any
          (window_matches_exclusion w.1 w.2.1 w.2.2) = true) ∧
    resolve_window_bounds
        ((List.range 12).map fun i =>
          (⟨i, 7, ⟨2030, 1, 1⟩, ⟨2030, 2, 1⟩, none, some (i + 1)⟩ :
            BenefitWindowExclusion))
        ⟨1, "W", 95, ⟨2024, 8, 15⟩, .calendar⟩
        ⟨7, 1, "Dining", .monthly, .incremental, 50, none, none, none, none,
          false, none⟩ ⟨2024, 5, 20⟩ =
      ((compute_cycle_bounds ⟨1, "W", 95, ⟨2024, 8, 15⟩, .calendar⟩
          ((⟨7, 1, "Dining", .monthly, .incremental, 50, none, none, none,
            none, false, none⟩ : Benefit).window_tracking_mode.getD
            (⟨1, "W", 95, ⟨2024, 8, 15⟩, .calendar⟩ :
              CreditCard).year_tracking_mode) ⟨2024, 5, 20⟩).1,
       (compute_cycle_bounds ⟨1, "W", 95, ⟨2024, 8, 15⟩, .calendar⟩
          ((⟨7, 1, "Dining", .monthly, .incremental, 50, none, none, none,
            none, false, none⟩ : Benefit).window_tracking_mode.getD
            (⟨1, "W", 95, ⟨2024, 8, 15⟩, .calendar⟩ :
              CreditCard).year_tracking_mode) ⟨2024, 5, 20⟩).2, 1) :=
  ⟨by decide,
    resolve_window_bounds_all_excluded _ _ _ _ (by decide) (by decide)⟩

/-! Usage-status synchronisation. -/

theorem resolve_window_target_eq_spec (benefit : Benefit) (wi : Nat)
    (hwi : 1 ≤ wi) :
    resolve_window_target benefit wi = spec_window_target benefit wi := by
  unfold resolve_window_target spec_window_target
  rw [if_neg (by omega : ¬ wi = 0)]
  cases benefit.window_values with
  | none => simp
  | some wv => rfl

theorem window_total_degenerate (ledger : List BenefitRedemption) (b : Nat)
    (ws we : Date) (h : dateLe we ws) :
    window_redemption_total ledger b ws we = 0 := by
  unfold window_redemption_total
  have hnil : ledger.filter (fun r =>
      r.benefit_id == b && redemptionInRange (some ws) (some we) r) = [] := by
    rw [List.filter_eq_nil_iff]
    intro r hr hc
    simp only [redemptionInRange, Bool.and_eq_true, decide_eq_true_eq] at hc
    obtain ⟨_, h1, h2⟩ := hc
    exact absurd
      (dateLt_of_dateLt_of_dateLe r.occurred_on we r.occurred_on h2
        (dateLe_trans we ws r.occurred_on h h1))
      (dateLt_irrefl r.occurred_on)
  rw [hnil]
  rfl

theorem sync_should_total (ledger : List BenefitRedemption) (b : Nat)
    (ws we : Date) :
    (summaryGet
        (if dateLe we ws then []
         else redemption_summary_for_benefits ledger [b] (some ws) (some we))
        b).1 = window_redemption_total ledger b ws we := by
  split
  · rename_i h
    rw [window_total_degenerate ledger b ws we h]
    rfl
  · have := (summary_lookup_spec ledger [b] (some ws) (some we) b (by simp)).2
    rw [this]
    rfl

/-- C6: for every incremental benefit, the usage-status sync computes its
target as the `window_values` entry at the current active window's original
1-based index (when `window_values` is set and has an entry there, else the
flat `value`); `should_be_used` holds exactly when the target is positive and
the window-scoped redemption total (not the whole cycle's) reaches it, and
`is_used`/`used_at` are flipped to `should_be_used`/now (or cleared) only
when `should_be_used` differs from the stored `is_used`. -/
theorem sync_incremental (ledger : List BenefitRedemption)
    (exclusions : List BenefitWindowExclusion) (card : CreditCard)
    (benefit : Benefit) (today : Date) (now : Nat)
    (htype : benefit.type = .incremental) :
    ∃ should : Bool,
      (should = true ↔
        (0 < spec_window_target benefit
            (resolve_window_bounds exclusions card benefit today).2.2 ∧
         spec_window_target benefit
             (resolve_window_bounds exclusions card benefit today).2.2 ≤
           window_redemption_total ledger benefit.id
             (resolve_window_bounds exclusions card benefit today).1
             (resolve_window_bounds exclusions card benefit today).2.1)) ∧
      sync_benefit_usage_status ledger exclusions card benefit today now =
        { benefit with
            is_used := should,
            used_at :=
              if benefit.is_used = should then benefit.used_at
              else if should then some now else none } := by
  refine ⟨sync_should_be_used ledger exclusions card benefit today, ?_, ?_⟩
  · unfold sync_should_be_used
    rw [if_pos htype]
    rw [sync_should_total ledger benefit.id
      (resolve_window_bounds exclusions card benefit today).1
      (resolve_window_bounds exclusions card benefit today).2.1]
    rw [resolve_window_target_eq_spec benefit
      (resolve_window_bounds exclusions card benefit today).2.2
      (resolve_window_bounds_index_pos exclusions card benefit today)]
    simp
  · unfold sync_benefit_usage_status
    rw [if_neg (fun h => h.1 htype)]
    by_cases hflip : benefit.is_used =
        sync_should_be_used ledger exclusions card benefit today
    · rw [if_neg (by simpa using hflip), if_pos hflip]
      rw [← hflip]
    · rw [if_pos hflip, if_neg hflip]

/-- Witness for C6 at a concrete incremental benefit that earns its window
target with a single in-window redemption. -/
theorem sync_incremental_witness :
    (⟨7, 1, "Dining", .monthly, .incremental, 50, none, none, none, none,
        false, none⟩ : Benefit).type = .incremental ∧
    (∃ should : Bool,
      (should = true ↔
        (0 < spec_window_target
            ⟨7, 1, "Dining", .monthly, .incremental, 50, none, none, none,
              none, false, none⟩
            (resolve_window_bounds [] ⟨1, "W", 95, ⟨2024, 8, 15⟩, .calendar⟩
              ⟨7, 1, "Dining", .monthly, .incremental, 50, none, none, none,
                none, false, none⟩ ⟨2024, 5, 20⟩).2.2 ∧
         spec_window_target
             ⟨7, 1, "Dining", .monthly, .incremental, 50, none, none, none,
               none, false, none⟩
             (resolve_window_bounds [] ⟨1, "W", 95, ⟨2024, 8, 15⟩, .calendar⟩
               ⟨7, 1, "Dining", .monthly, .incremental, 50, none, none, none,
                 none, false, none⟩ ⟨2024, 5, 20⟩).2.2 ≤
           window_redemption_total [⟨1, 7, "Dinner", 50, ⟨2024, 5, 10⟩⟩] 7
             (resolve_window_bounds [] ⟨1, "W", 95, ⟨2024, 8, 15⟩, .calendar⟩
               ⟨7, 1, "Dining", .monthly, .incremental, 50, none, none, none,
                 none, false, none⟩ ⟨2024, 5, 20⟩).1
             (resolve_window_bounds [] ⟨1, "W", 95, ⟨2024, 8, 15⟩, .calendar⟩
               ⟨7, 1, "Dining", .monthly, .incremental, 50, none, none, none,
                 none, false, none⟩ ⟨2024, 5, 20⟩).2.1)) ∧
      sync_benefit_usage_status [⟨1, 7, "Dinner", 50, ⟨2024, 5, 10⟩⟩] []
          ⟨1, "W", 95, ⟨2024, 8, 15⟩, .calendar⟩
          ⟨7, 1, "Dining", .monthly, .incremental, 50, none, none, none, none,
            false, none⟩ ⟨2024, 5, 20⟩ 99 =
        { (⟨7, 1, "Dining", .monthly, .incremental, 50, none, none, none, none,
            false, none⟩ : Benefit) with
            is_used := should,
            used_at :=
              if (⟨7, 1, "Dining", .monthly, .incremental, 50, none, none,
                  none, none, false, none⟩ : Benefit).is_used = should then
                (⟨7, 1, "Dining", .monthly, .incremental, 50, none, none, none,
                  none, false, none⟩ : Benefit).used_at
              else if should then some 99 else none }) :=
  ⟨rfl,
    sync_incremental [⟨1, 7, "Dinner", 50, ⟨2024, 5, 10⟩⟩] []
      ⟨1, "W", 95, ⟨2024, 8, 15⟩, .calendar⟩
      ⟨7, 1, "Dining", .monthly, .incremental, 50, none, none, none, none,
        false, none⟩ ⟨2024, 5, 20⟩ 99 rfl⟩

/-- C7: the usage-status sync is idempotent — with the ledger, exclusions and
reference day held fixed, running `sync_benefit_usage_status` immediately
after a first run changes nothing: `is_used` and `used_at` are already at a
stable fixed point (for every benefit type, including the untouched
cumulative case). -/
theorem sync_benefit_usage_status_idempotent (ledger : List BenefitRedemption)
    (exclusions : List BenefitWindowExclusion) (card : CreditCard)
    (benefit : Benefit) (today : Date) (now1 now2 : Nat) :
    sync_benefit_usage_status ledger exclusions card
      (sync_benefit_usage_status ledger exclusions card benefit today now1)
      today now2 =
    sync_benefit_usage_status ledger exclusions card benefit today now1 := by
  by_cases hguard : benefit.type ≠ .incremental ∧ benefit.type ≠ .standard
  · have h1 : sync_benefit_usage_status ledger exclusions card benefit today
        now1 = benefit := by
      unfold sync_benefit_usage_status
      rw [if_pos hguard]
    rw [h1]
    unfold sync_benefit_usage_status
    rw [if_pos hguard]
  · by_cases hflip : benefit.is_used ≠
        sync_should_be_used ledger exclusions card benefit today
    · have h1 : sync_benefit_usage_status ledger exclusions card benefit today
          now1 =
          { benefit with
              is_used := sync_should_be_used ledger exclusions card benefit today,
              used_at :=
                if sync_should_be_used ledger exclusions card benefit today then
                  some now1
                else none } := by
        unfold sync_benefit_usage_status
        rw [if_neg hguard, if_pos hflip]
      rw [h1]
      have hkey : sync_should_be_used ledger exclusions card
          { benefit with
              is_used := sync_should_be_used ledger exclusions card benefit today,
              used_at :=
                if sync_should_be_used ledger exclusions card benefit today then
                  some now1
                else none } today =
          sync_should_be_used ledger exclusions card benefit today := rfl
      unfold sync_benefit_usage_status
      rw [hkey]
      rw [if_neg (by exact hguard), if_neg (by simp)]
    · have heq : benefit.is_used =
          sync_should_be_used ledger exclusions card benefit today :=
        not_not.mp (by simpa using hflip)
      have h1 : sync_benefit_usage_status ledger exclusions card benefit today
          now1 = benefit := by
        unfold sync_benefit_usage_status
        rw [if_neg hguard, if_neg hflip]
      rw [h1]
      unfold sync_benefit_usage_status
      rw [if_neg hguard, if_neg hflip]

/-! Valuation and expiration. -/

theorem card_value_totals_shift (today : Date) (benefits : List BenefitRead) :
    ∀ a : ℚ × ℚ,
      benefits.foldl
        (fun acc b =>
          let t := compute_benefit_totals b today
          (acc.1 + t.1, acc.2 + t.2)) a =
      (a.1 + (card_value_totals benefits today).1,
       a.2 + (card_value_totals benefits today).2) := by
  induction benefits with
  | nil =>
      intro a
      simp [card_value_totals]
  | cons b rest ih =>
      intro a
      unfold card_value_totals
      simp only [List.foldl_cons]
      rw [ih, ih]
      simp
      constructor <;> ring

theorem card_value_totals_cons (b : BenefitRead) (rest : List BenefitRead)
    (today : Date) :
    card_value_totals (b :: rest) today =
      ((compute_benefit_totals b today).1 + (card_value_totals rest today).1,
       (compute_benefit_totals b today).2 + (card_value_totals rest today).2) := by
  unfold card_value_totals
  simp only [List.foldl_cons]
  rw [card_value_totals_shift]
  unfold card_value_totals
  simp only [Prod.mk.injEq]
  constructor <;> simp

/-- C8 (amended): the effective expiration date is the one computed by
`_compute_benefit_expiration`, which prefers the derived last day of the
current/yearly window over an explicit `expiration_date` whenever
`window_tracking_mode` is set (the explicit date wins only when
`window_tracking_mode` is unset, with the derived date as fallback).  When
that effective expiration is strictly before today, the valuation returns
potential = 0 regardless of benefit type, value and cycle targets, while the
utilized amount is exactly what a non-expired benefit would get; in
particular such a benefit contributes 0 potential — but its full utilized
amount — to the card-level totals. -/
theorem expired_benefit_zero_potential (b : Benefit)
    (cycle_end window_end fallback : Option Date) (br : BenefitRead)
    (today e : Date) (rest : List BenefitRead)
    (hbr : br.expiration_date =
      compute_benefit_expiration b cycle_end window_end fallback)
    (heff : compute_benefit_expiration b cycle_end window_end fallback = some e)
    (hlt : dateLt e today) :
    (compute_benefit_totals br today).1 = 0 ∧
    (compute_benefit_totals br today).2 =
      (compute_benefit_totals { br with expiration_date := none } today).2 ∧
    (card_value_totals (br :: rest) today).1 =
      (card_value_totals rest today).1 ∧
    (card_value_totals (br :: rest) today).2 =
      (card_value_totals rest today).2 + (compute_benefit_totals br today).2 := by
  have hexp : br.expiration_date = some e := by rw [hbr, heff]
  have hzero : (compute_benefit_totals br today).1 = 0 := by
    unfold compute_benefit_totals
    rw [hexp]
    simp [hlt]
  refine ⟨hzero, rfl, ?_, ?_⟩
  · rw [card_value_totals_cons, hzero]
    ring
  · rw [card_value_totals_cons]
    ring

/-- C8 counterexample: a standard benefit with `window_tracking_mode` set to
calendar and an explicit `expiration_date` of 2024-01-01 — strictly before
today (2025-06-15).  The claim's notion of effective expiration (explicit
date wins) is in the past and demands potential 0, but the code's
`_compute_benefit_expiration` overrides the explicit date with the derived
window end (2025-06-30, in the future), so the benefit is not expired and its
potential is the full 100. -/
theorem expired_benefit_zero_potential_counterexample :
    claim_effective_expiration
        ⟨7, 1, "Spa", .monthly, .standard, 100, none, none, some .calendar,
          some ⟨2024, 1, 1⟩, false, none⟩
        (some ⟨2026, 1, 1⟩) (some ⟨2025, 7, 1⟩) none = some ⟨2024, 1, 1⟩ ∧
    dateLt ⟨2024, 1, 1⟩ ⟨2025, 6, 15⟩ ∧
    compute_benefit_expiration
        ⟨7, 1, "Spa", .monthly, .standard, 100, none, none, some .calendar,
          some ⟨2024, 1, 1⟩, false, none⟩
        (some ⟨2026, 1, 1⟩) (some ⟨2025, 7, 1⟩) none = some ⟨2025, 6, 30⟩ ∧
    (compute_benefit_totals
        { type := .standard, value := 100, expected_value := none,
          is_used := false, cycle_redemption_total := 0,
          cycle_target_value := some 100, missed_window_value := 0,
          expiration_date :=
            compute_benefit_expiration
              ⟨7, 1, "Spa", .monthly, .standard, 100, none, none,
                some .calendar, some ⟨2024, 1, 1⟩, false, none⟩
              (some ⟨2026, 1, 1⟩) (some ⟨2025, 7, 1⟩) none }
        ⟨2025, 6, 15⟩).1 = 100 := by
  refine ⟨rfl, by decide, rfl, ?_⟩
  show (compute_benefit_totals
      { type := .standard, value := 100, expected_value := none,
        is_used := false, cycle_redemption_total := 0,
        cycle_target_value := some 100, missed_window_value := 0,
        expiration_date := some ⟨2025, 6, 30⟩ } ⟨2025, 6, 15⟩).1 = 100
  unfold compute_benefit_totals
  norm_num [dateLt]

/-- Witness for the amended C8: an unused standard benefit with an explicit
past expiration (and no tracking-mode override) yields potential 0 while its
utilized amount matches the non-expired computation. -/
theorem expired_benefit_zero_potential_witness :
    ({ type := .standard, value := 100, expected_value := none,
        is_used := false, cycle_redemption_total := 0,
        cycle_target_value := some 100, missed_window_value := 0,
        expiration_date :=
          compute_benefit_expiration
            ⟨9, 1, "Lounge", .yearly, .standard, 100, none, none, none,
              some ⟨2024, 1, 1⟩, false, none⟩
            (some ⟨2026, 1, 1⟩) none none } : BenefitRead).expiration_date =
      compute_benefit_expiration
        ⟨9, 1, "Lounge", .yearly, .standard, 100, none, none, none,
          some ⟨2024, 1, 1⟩, false, none⟩ (some ⟨2026, 1, 1⟩) none none ∧
    compute_benefit_expiration
        ⟨9, 1, "Lounge", .yearly, .standard, 100, none, none, none,
          some ⟨2024, 1, 1⟩, false, none⟩ (some ⟨2026, 1, 1⟩) none none =
      some ⟨2024, 1, 1⟩ ∧
    dateLt ⟨2024, 1, 1⟩ ⟨2025, 6, 15⟩ ∧
    ((compute_benefit_totals
        { type := .standard, value := 100, expected_value := none,
          is_used := false, cycle_redemption_total := 0,
          cycle_target_value := some 100, missed_window_value := 0,
          expiration_date :=
            compute_benefit_expiration
              ⟨9, 1, "Lounge", .yearly, .standard, 100, none, none, none,
                some ⟨2024, 1, 1⟩, false, none⟩
              (some ⟨2026, 1, 1⟩) none none } ⟨2025, 6, 15⟩).1 = 0 ∧
     (compute_benefit_totals
        { type := .standard, value := 100, expected_value := none,
          is_used := false, cycle_redemption_total := 0,
          cycle_target_value := some 100, missed_window_value := 0,
          expiration_date :=
            compute_benefit_expiration
              ⟨9, 1, "Lounge", .yearly, .standard, 100, none, none, none,
                some ⟨2024, 1, 1⟩, false, none⟩
              (some ⟨2026, 1, 1⟩) none none } ⟨2025, 6, 15⟩).2 =
      (compute_benefit_totals
        { ({ type := .standard, value := 100, expected_value := none,
             is_used := false, cycle_redemption_total := 0,
             cycle_target_value := some 100, missed_window_value := 0,
             expiration_date :=
               compute_benefit_expiration
                 ⟨9, 1, "Lounge", .yearly, .standard, 100, none, none, none,
                   some ⟨2024, 1, 1⟩, false, none⟩
                 (some ⟨2026, 1, 1⟩) none none } : BenefitRead) with
            expiration_date := none } ⟨2025, 6, 15⟩).2 ∧
     (card_value_totals
        [{ type := .standard, value := 100, expected_value := none,
           is_used := false, cycle_redemption_total := 0,
           cycle_target_value := some 100, missed_window_value := 0,
           expiration_date :=
             compute_benefit_expiration
               ⟨9, 1, "Lounge", .yearly, .standard, 100, none, none, none,
                 some ⟨2024, 1, 1⟩, false, none⟩
               (some ⟨2026, 1, 1⟩) none none }] ⟨2025, 6, 15⟩).1 =
      (card_value_totals [] ⟨2025, 6, 15⟩).1 ∧
     (card_value_totals
        [{ type := .standard, value := 100, expected_value := none,
           is_used := false, cycle_redemption_total := 0,
           cycle_target_value := some 100, missed_window_value := 0,
           expiration_date :=
             compute_benefit_expiration
               ⟨9, 1, "Lounge", .yearly, .standard, 100, none, none, none,
                 some ⟨2024, 1, 1⟩, false, none⟩
               (some ⟨2026, 1, 1⟩) none none }] ⟨2025, 6, 15⟩).2 =
      (card_value_totals [] ⟨2025, 6, 15⟩).2 +
        (compute_benefit_totals
          { type := .standard, value := 100, expected_value := none,
            is_used := false, cycle_redemption_total := 0,
            cycle_target_value := some 100, missed_window_value := 0,
            expiration_date :=
              compute_benefit_expiration
                ⟨9, 1, "Lounge", .yearly, .standard, 100, none, none, none,
                  some ⟨2024, 1, 1⟩, false, none⟩
                (some ⟨2026, 1, 1⟩) none none } ⟨2025, 6, 15⟩).2) :=
  ⟨rfl, rfl, by decide,
    expired_benefit_zero_potential
      ⟨9, 1, "Lounge", .yearly, .standard, 100, none, none, none,
        some ⟨2024, 1, 1⟩, false, none⟩
      (some ⟨2026, 1, 1⟩) none none
      { type := .standard, value := 100, expected_value := none,
        is_used := false, cycle_redemption_total := 0,
        cycle_target_value := some 100, missed_window_value := 0,
        expiration_date :=
          compute_benefit_expiration
            ⟨9, 1, "Lounge", .yearly, .standard, 100, none, none, none,
              some ⟨2024, 1, 1⟩, false, none⟩ (some ⟨2026, 1, 1⟩) none none }
      ⟨2025, 6, 15⟩ ⟨2024, 1, 1⟩ [] rfl rfl (by decide)⟩

/-! Window-values validation in benefit updates. -/

theorem sync_window_values (ledger : List BenefitRedemption)
    (exclusions : List BenefitWindowExclusion) (card : CreditCard)
    (b : Benefit) (today : Date) (now : Nat) :
    (sync_benefit_usage_status ledger exclusions card b today now).window_values =
      b.window_values := by
  simp only [sync_benefit_usage_status]
  split
  · rfl
  · split <;> rfl

theorem freq_guard_id (f : BenefitFrequency) (b b' : Benefit) :
    (if f = .monthly ∨ f = .quarterly ∨ f = .semiannual ∨ f = .yearly then b
     else b') = b := by
  cases f <;> simp

theorem update_benefit_finish_window_values (ledger : List BenefitRedemption)
    (exclusions : List BenefitWindowExclusion) (card : CreditCard)
    (payload : BenefitUpdate) (b : Benefit) (today : Date) (now : Nat) :
    (update_benefit_finish ledger exclusions card payload b today
        now).window_values = b.window_values := by
  simp only [update_benefit_finish]
  rw [sync_window_values]
  cases payload.frequency with
  | none =>
      cases payload.is_used with
      | none => rfl
      | some u =>
          simp only []
          split
          · rfl
          · split <;> rfl
  | some f =>
      simp only []
      rw [freq_guard_id]
      cases payload.is_used with
      | none => rfl
      | some u =>
          simp only []
          split
          · rfl
          · split <;> rfl

theorem update_benefit_set_window_values (ledger : List BenefitRedemption)
    (exclusions : List BenefitWindowExclusion) (card : CreditCard)
    (benefit : Benefit) (payload : BenefitUpdate) (today : Date) (now : Nat)
    (vs : List ℚ) (hset : payload.window_values = some (some vs)) :
    update_benefit ledger exclusions card benefit payload today now =
      match normalise_window_values (payload.frequency.getD benefit.frequency)
          (some vs) with
      | .error e => .error e
      | .ok wv =>
          .ok (update_benefit_finish ledger exclusions card payload
            { update_benefit_fields benefit payload with window_values := wv }
            today now) := by
  simp only [update_benefit]
  rw [hset]

/-- C9 (amended): when a benefit update sets `window_values`, a non-empty list
is validated against the frequency's window count — no count exists for
`yearly` (error), a length mismatch is an error, and any negative entry is an
error — each raised before the commit, so the stored benefit is unchanged; an
empty list is accepted and clears the stored value to null; a correct-length
non-negative list is accepted and reading the benefit back yields the same
sequence of values. -/
theorem update_benefit_window_values (ledger : List BenefitRedemption)
    (exclusions : List BenefitWindowExclusion) (card : CreditCard)
    (benefit : Benefit) (payload : BenefitUpdate) (today : Date) (now : Nat)
    (vs : List ℚ)
    (hset : payload.window_values = some (some vs)) :
    (vs = [] →
      ∃ b', update_benefit ledger exclusions card benefit payload today now =
          .ok b' ∧ b'.window_values = none) ∧
    (vs ≠ [] →
      WINDOW_COUNT_BY_FREQUENCY (payload.frequency.getD benefit.frequency) =
        none →
      ∃ msg, update_benefit ledger exclusions card benefit payload today now =
          .error msg) ∧
    (vs ≠ [] → ∀ expected,
      WINDOW_COUNT_BY_FREQUENCY (payload.frequency.getD benefit.frequency) =
        some expected →
      vs.length ≠ expected →
      ∃ msg, update_benefit ledger exclusions card benefit payload today now =
          .error msg) ∧
    (vs ≠ [] →
      WINDOW_COUNT_BY_FREQUENCY (payload.frequency.getD benefit.frequency) =
        some vs.length →
      (∃ v ∈ vs, v < 0) →
      ∃ msg, update_benefit ledger exclusions card benefit payload today now =
          .error msg) ∧
    (vs ≠ [] →
      WINDOW_COUNT_BY_FREQUENCY (payload.frequency.getD benefit.frequency) =
        some vs.length →
      (∀ v ∈ vs, 0 ≤ v) →
      ∃ b', update_benefit ledger exclusions card benefit payload today now =
          .ok b' ∧ b'.window_values = some vs) := by
  rw [update_benefit_set_window_values ledger exclusions card benefit payload
    today now vs hset]
  refine ⟨?_, ?_, ?_, ?_, ?_⟩
  · intro hnil
    subst hnil
    have hnorm : normalise_window_values
        (payload.frequency.getD benefit.frequency) (some []) = .ok none := rfl
    rw [hnorm]
    exact ⟨_, rfl, by rw [update_benefit_finish_window_values]⟩
  · intro hvne hcount
    have hnorm : normalise_window_values
        (payload.frequency.getD benefit.frequency) (some vs) =
        .error "Custom window values are only supported for monthly, quarterly, or semiannual benefits." := by
      simp only [normalise_window_values]
      rw [if_neg (by simpa [List.isEmpty_iff] using hvne)]
      simp only [hcount]
    rw [hnorm]
    exact ⟨_, rfl⟩
  · intro hvne expected hcount hlen
    have hnorm : normalise_window_values
        (payload.frequency.getD benefit.frequency) (some vs) =
        .error ("Expected " ++ toString expected ++ " values for a " ++
          frequencyValue (payload.frequency.getD benefit.frequency) ++
          " benefit, received " ++ toString vs.length ++ ".") := by
      simp only [normalise_window_values]
      rw [if_neg (by simpa [List.isEmpty_iff] using hvne)]
      simp only [hcount]
      rw [if_pos hlen]
    rw [hnorm]
    exact ⟨_, rfl⟩
  · intro hvne hcount hneg
    have hany : vs.any (fun v => decide (v < 0)) = true := by
      rw [List.any_eq_true]
      obtain ⟨v, hv, hvlt⟩ := hneg
      exact ⟨v, hv, by simpa using hvlt⟩
    have hnorm : normalise_window_values
        (payload.frequency.getD benefit.frequency) (some vs) =
        .error "Window values must be zero or greater." := by
      simp only [normalise_window_values]
      rw [if_neg (by simpa [List.isEmpty_iff] using hvne)]
      simp only [hcount]
      rw [if_neg (by omega : ¬ vs.length ≠ vs.length), if_pos hany]
    rw [hnorm]
    exact ⟨_, rfl⟩
  · intro hvne hcount hpos
    have hany : vs.any (fun v => decide (v < 0)) = false := by
      rw [List.any_eq_false]
      intro v hv
      simpa using not_lt.mpr (hpos v hv)
    have hnorm : normalise_window_values
        (payload.frequency.getD benefit.frequency) (some vs) =
        .ok (some vs) := by
      simp only [normalise_window_values]
      rw [if_neg (by simpa [List.isEmpty_iff] using hvne)]
      simp only [hcount]
      rw [if_neg (by omega : ¬ vs.length ≠ vs.length),
        if_neg (by simp [hany])]
    rw [hnorm]
    exact ⟨_, rfl, by rw [update_benefit_finish_window_values]⟩

/-- C9 counterexample: a quarterly benefit expects 4 window values, yet an
update setting an empty `window_values` list (length 0, which does not match
4) raises no validation error — it is accepted and clears the stored values
to null, mutating state. -/
theorem update_benefit_window_values_counterexample :
    ([] : List ℚ).length ≠ 4 ∧
    WINDOW_COUNT_BY_FREQUENCY .quarterly = some 4 ∧
    update_benefit [] [] ⟨1, "W", 95, ⟨2024, 8, 15⟩, .calendar⟩
        ⟨7, 1, "Dining", .quarterly, .standard, 120, none,
          some [10, 20, 30, 40], none, none, false, none⟩
        { window_values := some (some []) } ⟨2024, 5, 20⟩ 99 =
      .ok ⟨7, 1, "Dining", .quarterly, .standard, 120, none, none, none, none,
        false, none⟩ :=
  ⟨by decide, rfl, rfl⟩

/-- Witness for the amended C9 at a concrete quarterly benefit and payload. -/
theorem update_benefit_window_values_witness :
    ({ window_values := some (some [10, 20, 30]) } :
        BenefitUpdate).window_values = some (some [10, 20, 30]) ∧
    ((([10, 20, 30] : List ℚ) = [] →
      ∃ b', update_benefit [] [] ⟨1, "W", 95, ⟨2024, 8, 15⟩, .calendar⟩
          ⟨7, 1, "Dining", .quarterly, .standard, 120, none, none, none, none,
            false, none⟩
          { window_values := some (some [10, 20, 30]) } ⟨2024, 5, 20⟩ 99 =
          .ok b' ∧ b'.window_values = none) ∧
    (([10, 20, 30] : List ℚ) ≠ [] →
      WINDOW_COUNT_BY_FREQUENCY
        (({ window_values := some (some [10, 20, 30])} :
          BenefitUpdate).frequency.getD
          (⟨7, 1, "Dining", .quarterly, .standard, 120, none, none, none,
            none, false, none⟩ : Benefit).frequency) = none →
      ∃ msg, update_benefit [] [] ⟨1, "W", 95, ⟨2024, 8, 15⟩, .calendar⟩
          ⟨7, 1, "Dining", .quarterly, .standard, 120, none, none, none, none,
            false, none⟩
          { window_values := some (some [10, 20, 30]) } ⟨2024, 5, 20⟩ 99 =
          .error msg) ∧
    (([10, 20, 30] : List ℚ) ≠ [] → ∀ expected,
      WINDOW_COUNT_BY_FREQUENCY
        (({ window_values := some (some [10, 20, 30]) } :
          BenefitUpdate).frequency.getD
          (⟨7, 1, "Dining", .quarterly, .standard, 120, none, none, none,
            none, false, none⟩ : Benefit).frequency) = some expected →
      ([10, 20, 30] : List ℚ).length ≠ expected →
      ∃ msg, update_benefit [] [] ⟨1, "W", 95, ⟨2024, 8, 15⟩, .calendar⟩
          ⟨7, 1, "Dining", .quarterly, .standard, 120, none, none, none, none,
            false, none⟩
          { window_values := some (some [10, 20, 30]) } ⟨2024, 5, 20⟩ 99 =
          .error msg) ∧
    (([10, 20, 30] : List ℚ) ≠ [] →
      WINDOW_COUNT_BY_FREQUENCY
        (({ window_values := some (some [10, 20, 30]) } :
          BenefitUpdate).frequency.getD
          (⟨7, 1, "Dining", .quarterly, .standard, 120, none, none, none,
            none, false, none⟩ : Benefit).frequency) =
        some ([10, 20, 30] : List ℚ).length →
      (∃ v ∈ ([10, 20, 30] : List ℚ), v < 0) →
      ∃ msg, update_benefit [] [] ⟨1, "W", 95, ⟨2024, 8, 15⟩, .calendar⟩
          ⟨7, 1, "Dining", .quarterly, .standard, 120, none, none, none, none,
            false, none⟩
          { window_values := some (some [10, 20, 30]) } ⟨2024, 5, 20⟩ 99 =
          .error msg) ∧
    (([10, 20, 30] : List ℚ) ≠ [] →
      WINDOW_COUNT_BY_FREQUENCY
        (({ window_values := some (some [10, 20, 30]) } :
          BenefitUpdate).frequency.getD
          (⟨7, 1, "Dining", .quarterly, .standard, 120, none, none, none,
            none, false, none⟩ : Benefit).frequency) =
        some ([10, 20, 30] : List ℚ).length →
      (∀ v ∈ ([10, 20, 30] : List ℚ), 0 ≤ v) →
      ∃ b', update_benefit [] [] ⟨1, "W", 95, ⟨2024, 8, 15⟩, .calendar⟩
          ⟨7, 1, "Dining", .quarterly, .standard, 120, none, none, none, none,
            false, none⟩
          { window_values := some (some [10, 20, 30]) } ⟨2024, 5, 20⟩ 99 =
          .ok b' ∧ b'.window_values = some [10, 20, 30])) :=
  ⟨rfl,
    update_benefit_window_values [] [] ⟨1, "W", 95, ⟨2024, 8, 15⟩, .calendar⟩
      ⟨7, 1, "Dining", .quarterly, .standard, 120, none, none, none, none,
        false, none⟩
      { window_values := some (some [10, 20, 30]) } ⟨2024, 5, 20⟩ 99
      [10, 20, 30] rfl⟩

end CreditWatch
